import Mathlib

/-!
# Verification of the instapaper article-library core

Shallow embedding of the article lifecycle / synchronization engine of the
`instapaper_export` repository: canonical URL identity, the article store
(articles, folders, tags, article_tags, FTS projection), the fetch pipeline
with its retry/backoff candidate selection, the obsolescence gate on the
read surfaces, and the folder materialized-path recomputation.

Timestamps are modelled as `Int` seconds since the Unix epoch and rendered
to the exact strings the Go code produces (`time.RFC3339` for stored
timestamps, SQLite's `datetime()` format for the in-query cutoff), because
the fetch-candidate query compares those strings byte-wise.
-/

namespace Instapaper

/-- Byte-wise (lexicographic on code points; for the ASCII strings produced
here, identical to SQLite's BINARY collation memcmp) `≤` on char lists. -/
def charListLe : List Char → List Char → Bool
  | [], _ => true
  | _ :: _, [] => false
  | a :: as, b :: bs =>
    if a < b then true
    else if a = b then charListLe as bs
    else false

/-- String comparison as SQLite's default BINARY collation performs it on
the ASCII datetime strings involved. -/
def strLe (a b : String) : Bool := charListLe a.data b.data

/-- Zero-padded two-digit decimal rendering of a small nonnegative `Int`. -/
def pad2 (n : Int) : String :=
  if n < 10 then "0" ++ toString n.toNat else toString n.toNat

/-- Zero-padded four-digit decimal rendering (years in scope are ≥ 1000). -/
def pad4 (n : Int) : String := toString n.toNat

/-- Civil date from days since 1970-01-01 (proleptic Gregorian), the
standard floor-division algorithm; mirrors what Go's `time` package
computes for UTC dates. -/
def civilFromDays (z0 : Int) : Int × Int × Int :=
  let z := z0 + 719468
  let era := z.ediv 146097
  let doe := z.emod 146097
  let yoe := (doe - doe.ediv 1460 + doe.ediv 36524 - doe.ediv 146096).ediv 365
  let y := yoe + era * 400
  let doy := doe - (365 * yoe + yoe.ediv 4 - yoe.ediv 100)
  let mp := (5 * doy + 2).ediv 153
  let d := doy - (153 * mp + 2).ediv 5 + 1
  let m := mp + (if mp < 10 then 3 else -9)
  (y + (if m ≤ 2 then 1 else 0), m, d)

/-- Date-time fields (y, mo, d, h, mi, s) of a Unix timestamp in UTC. -/
def utcFields (t : Int) : Int × Int × Int × Int × Int × Int :=
  let days := t.ediv 86400
  let secs := t.emod 86400
  let (y, mo, d) := civilFromDays days
  (y, mo, d, secs.ediv 3600, (secs.emod 3600).ediv 60, secs.emod 60)

/-- `time.Now().UTC().Format(time.RFC3339)` in the Go sources: renders a
Unix timestamp as `YYYY-MM-DDTHH:MM:SSZ`. -/
def formatRFC3339 (t : Int) : String :=
  let (y, mo, d, h, mi, s) := utcFields t
  pad4 y ++ "-" ++ pad2 mo ++ "-" ++ pad2 d ++ "T" ++
    pad2 h ++ ":" ++ pad2 mi ++ ":" ++ pad2 s ++ "Z"

/-- SQLite's `datetime(...)` text: `YYYY-MM-DD HH:MM:SS` (space separator,
no zone suffix); the form `datetime('now', '-1 hour')` takes inside the
fetch-candidate query. -/
def formatSQLiteDateTime (t : Int) : String :=
  let (y, mo, d, h, mi, s) := utcFields t
  pad4 y ++ "-" ++ pad2 mo ++ "-" ++ pad2 d ++ " " ++
    pad2 h ++ ":" ++ pad2 mi ++ ":" ++ pad2 s

/-- `util.UnixToISO8601`: `time.Unix(t, 0).UTC().Format(time.RFC3339)`. -/
def unixToISO8601 (t : Int) : String := formatRFC3339 t

/-- `strings.HasPrefix` (structurally recursive so that concrete
evaluations reduce in the kernel). -/
def strStartsWith (s pre : String) : Bool := pre.data.isPrefixOf s.data

/-- `strings.HasSuffix`. -/
def strEndsWith (s suf : String) : Bool :=
  suf.data.reverse.isPrefixOf s.data.reverse

/-- `strings.TrimSpace` (ASCII whitespace, which is all these inputs
carry). -/
def trimStr (s : String) : String :=
  String.mk (((s.data.dropWhile Char.isWhitespace).reverse.dropWhile
    Char.isWhitespace).reverse)

/-- ASCII-fold to lower case. -/
def toLowerStr (s : String) : String := String.mk (s.data.map Char.toLower)

/-- Split at every occurrence of the single character `c`
(`strings.Split` with a one-char separator). -/
def splitOnCharAux (c : Char) : List Char → List Char → List (List Char)
  | [], acc => [acc.reverse]
  | x :: xs, acc =>
    if x = c then acc.reverse :: splitOnCharAux c xs []
    else splitOnCharAux c xs (x :: acc)

/-- String version of `splitOnCharAux`. -/
def splitOnChar (s : String) (c : Char) : List String :=
  (splitOnCharAux c s.data []).map String.mk

/-- Split at every occurrence of a (nonempty) separator string, leftmost
non-overlapping, with a structural fuel bound of the input length (always
sufficient: every step consumes at least one character). -/
def splitOnStrAux (sep : List Char) : Nat → List Char → List Char → List (List Char)
  | _, [], acc => [acc.reverse]
  | 0, s, acc => [acc.reverse ++ s]
  | fuel + 1, s@(x :: xs), acc =>
    if sep.isPrefixOf s then
      acc.reverse :: splitOnStrAux sep fuel (s.drop sep.length) []
    else splitOnStrAux sep fuel xs (x :: acc)

/-- `strings.Split` for a nonempty separator. -/
def splitOnStr (s sep : String) : List String :=
  if sep = "" then [s]
  else (splitOnStrAux sep.data s.data.length s.data []).map String.mk

/-- Split a string at the first occurrence of `sep`. -/
def splitFirstAux (sep : List Char) : List Char → List Char → Option (List Char × List Char)
  | [], _ => none
  | c :: rest, acc =>
    if sep.isPrefixOf (c :: rest) then
      some (acc.reverse, (c :: rest).drop sep.length)
    else splitFirstAux sep rest (c :: acc)

/-- String version of `splitFirstAux`. -/
def splitFirst (s sep : String) : Option (String × String) :=
  (splitFirstAux sep.data s.data []).map
    (fun p => (String.mk p.1, String.mk p.2))

/-- Go `strings.TrimSuffix`: removes `suffix` once if present. -/
def trimSuffix (s suffix : String) : String :=
  if strEndsWith s suffix then s.dropRight suffix.length else s

/-- Contiguous-sublist test on char lists. -/
def listIsInfixOf : List Char → List Char → Bool
  | pat, [] => pat.isEmpty
  | pat, s@(_ :: rest) => pat.isPrefixOf s || listIsInfixOf pat rest

/-- Case-insensitive substring test modelling SQLite `LIKE '%pat%'`
(ASCII case folding). -/
def likeContains (s pat : String) : Bool :=
  listIsInfixOf (toLowerStr pat).data (toLowerStr s).data

/-! ## Canonical Identity (`util.CanonicalizeURL`)

`CanonicalizeURL` drives Go's `net/url`. We model the subset of `net/url`
it exercises: absolute `scheme://host/path?query#fragment` URLs (plus
scheme-less inputs, which Go parses as a bare path), with parse failure on
a space character inside the host, which Go rejects
(`invalid character " " in host name`). -/

/-- Model of the `net/url.URL` fields used by `CanonicalizeURL`. -/
structure URL where
  scheme : String
  host : String
  path : String
  rawQuery : String
  fragment : String
deriving Repr, DecidableEq

/-- Split a string at the first occurrence of `c`; the second component is
the remainder after `c`, or `none` when `c` is absent. -/
def splitOnceChar (s : String) (c : Char) : String × Option String :=
  go s.data []
where
  go : List Char → List Char → String × Option String
    | [], acc => (String.mk acc.reverse, none)
    | x :: xs, acc =>
      if x = c then (String.mk acc.reverse, some (String.mk xs))
      else go xs (x :: acc)

/-- Take the authority: characters before the first `/`, `?` or `#`; the
second component is the remainder starting at the delimiter. -/
def spanAuthority (s : String) : String × String :=
  go s.data []
where
  go : List Char → List Char → String × String
    | [], acc => (String.mk acc.reverse, "")
    | x :: xs, acc =>
      if x = '/' ∨ x = '?' ∨ x = '#' then (String.mk acc.reverse, String.mk (x :: xs))
      else go xs (x :: acc)

/-- Go scheme validity: a nonempty ASCII-alpha-led run of alphanumerics,
`+`, `-` or `.`. -/
def validScheme (s : String) : Bool :=
  match s.data with
  | [] => false
  | c :: cs =>
    (c.isAlpha) && cs.all (fun x => x.isAlphanum ∨ x = '+' ∨ x = '-' ∨ x = '.')

/-- Split `path?query#fragment` into its three parts, fragment first, then
query, as `net/url` does. -/
def splitPathQueryFrag (s : String) : String × String × String :=
  let (beforeHash, afterHash) := splitOnceChar s '#'
  let (path, afterQ) := splitOnceChar beforeHash '?'
  (path, afterQ.getD "", afterHash.getD "")

/-- Model of `net/url.Parse` on the subset `CanonicalizeURL` exercises:
`scheme://host/path?query#fragment` (authority URLs) or a scheme-less
string parsed as a bare path; fails (like Go) on a space in the host. -/
def parseURL (s : String) : Option URL :=
  match splitFirst s "://" with
  | none =>
    let (path, q, frag) := splitPathQueryFrag s
    some ⟨"", "", path, q, frag⟩
  | some (scheme, rest) =>
    if validScheme scheme then
      let (host, tail) := spanAuthority rest
      if host.data.contains ' ' then none
      else
        let (path, q, frag) := splitPathQueryFrag tail
        some ⟨scheme, host, path, q, frag⟩
    else none

/-- `u.String()` for the modelled subset: reassemble the components. -/
def urlString (u : URL) : String :=
  (if u.scheme = "" then "" else u.scheme ++ "://" ++ u.host) ++ u.path ++
    (if u.rawQuery = "" then "" else "?" ++ u.rawQuery) ++
    (if u.fragment = "" then "" else "#" ++ u.fragment)

/-- The field rewrites of `util.CanonicalizeURL` between `url.Parse` and
`u.String()`: http→https, drop fragment, trim one trailing `/`. -/
def canonicalizeParsed (u : URL) : URL :=
  { u with
    scheme := if u.scheme = "http" then "https" else u.scheme
    fragment := ""
    path := trimSuffix u.path "/" }

/-- `util.CanonicalizeURL` end to end: parse, rewrite, re-render; `none`
models the propagated parse error. -/
def canonicalizeURL (raw : String) : Option String :=
  (parseURL raw).map (fun u => urlString (canonicalizeParsed u))

/-! ## Tag-string parsing (`util.ParseTags`, `util.DedupeStrings`) -/

/-- Scanner behind the regex `"([^"]*)"` of `util.ParseTags`: collect the
contents of each balanced pair of double quotes. The second argument is
`none` outside quotes and `some acc` (reversed chars so far) inside. -/
def quotedTokens : List Char → Option (List Char) → List String
  | [], _ => []
  | c :: cs, none =>
    if c = '"' then quotedTokens cs (some []) else quotedTokens cs none
  | c :: cs, some acc =>
    if c = '"' then String.mk acc.reverse :: quotedTokens cs none
    else quotedTokens cs (some (c :: acc))

/-- Go `strings.Trim(s, cutset)`: strip any leading/trailing chars from
`cut`. -/
def trimCutset (s : String) (cut : List Char) : String :=
  String.mk (((s.data.dropWhile (cut.contains ·)).reverse.dropWhile
    (cut.contains ·)).reverse)

/-- `util.ParseTags`: JSON-ish `["a","b"]` lists via the quote scanner,
otherwise comma splitting; empty entries dropped. -/
def parseTags (tagsStr0 : String) : List String :=
  let tagsStr := trimStr tagsStr0
  if tagsStr = "" ∨ tagsStr = "[]" then []
  else if strStartsWith tagsStr "[" ∧ strEndsWith tagsStr "]" then
    let inner := trimCutset tagsStr ['[', ']']
    if inner = "" then []
    else ((quotedTokens inner.data none).filter (· ≠ "")).map trimStr
  else
    ((splitOnChar tagsStr ',').map trimStr).filter (· ≠ "")

/-- Recursion behind `util.DedupeStrings` with its `seen` set. -/
def dedupeAux : List String → List String → List String
  | [], _ => []
  | x :: xs, seen =>
    let x' := trimStr x
    if x' ≠ "" ∧ ¬ seen.contains x' then x' :: dedupeAux xs (x' :: seen)
    else dedupeAux xs seen

/-- `util.DedupeStrings`: trim entries, drop empties and duplicates. -/
def dedupeStrings (l : List String) : List String := dedupeAux l []

/-! ## Data model (relational schema of `internal/model` / migrations) -/

/-- A row of the `articles` table (`model.Article` plus the `obsolete`
column added by the migration in the sources). -/
structure Article where
  id : Int
  url : String
  title : String
  selection : Option String := none
  folderId : Option Int := none
  instapaperedAt : String
  syncedAt : Option String := none
  syncFailedAt : Option String := none
  failedCount : Int := 0
  statusCode : Option Int := none
  statusText : Option String := none
  finalUrl : Option String := none
  contentMd : Option String := none
  rawHtml : Option String := none
  obsolete : Bool := false
deriving Repr, DecidableEq

/-- A row of the `folders` table. -/
structure Folder where
  id : Int
  title : String
  parentId : Option Int := none
  pathCache : Option String := none
deriving Repr, DecidableEq

/-- A row of the `tags` table. -/
structure Tag where
  id : Int
  title : String
deriving Repr, DecidableEq

/-- A row of the `articles_fts` full-text projection
(rowid, url, title, content, folder, tags). -/
structure FTSRow where
  rowid : Int
  url : String
  title : String
  content : String
  folder : String
  tags : String
deriving Repr, DecidableEq

/-- The persistent store: the five relations of the schema.
`articleTags` is the composite-key join table (articleId, tagId). -/
structure Store where
  articles : List Article := []
  folders : List Folder := []
  tags : List Tag := []
  articleTags : List (Int × Int) := []
  fts : List FTSRow := []
deriving Repr, DecidableEq

/-- SQLite `last_insert_rowid` abstraction: one more than the largest id in
use (fresh by construction). -/
def freshId (ids : List Int) : Int :=
  (ids.foldl max 0) + 1

/-- `db.UpsertFolder` (title-keyed find-or-insert); the CSV import always
passes a `nil` parent. Returns the updated store and the folder id. -/
def upsertFolder (s : Store) (title : String) (parentId : Option Int) :
    Store × Int :=
  match s.folders.find? (fun f => f.title = title) with
  | some f => (s, f.id)
  | none =>
    let fid := freshId (s.folders.map (·.id))
    ({ s with folders := s.folders ++ [{ id := fid, title := title, parentId := parentId }] }, fid)

/-- `db.UpsertTag` (title-keyed find-or-insert). -/
def upsertTag (s : Store) (title : String) : Store × Int :=
  match s.tags.find? (fun t => t.title = title) with
  | some t => (s, t.id)
  | none =>
    let tid := freshId (s.tags.map (·.id))
    ({ s with tags := s.tags ++ [{ id := tid, title := title }] }, tid)

/-- The `GROUP_CONCAT(t.title, ', ')` of an article's tags in join order,
as `db.UpsertArticleFTS` denormalizes them (`NULL` when the article has no
tags, rendered as `""` by the Go code). -/
def tagConcat (s : Store) (articleId : Int) : String :=
  let titles := (s.articleTags.filter (fun p => p.1 = articleId)).filterMap
    (fun p => (s.tags.find? (fun t => t.id = p.2)).map (·.title))
  String.intercalate ", " titles

/-- The folder path string joined into the projection: the folder's
`path_cache` via the LEFT JOIN, `""` when absent (Go's nil handling). -/
def folderPathOf (s : Store) (a : Article) : String :=
  match a.folderId with
  | none => ""
  | some fid =>
    match s.folders.find? (fun f => f.id = fid) with
    | none => ""
    | some f => f.pathCache.getD ""

/-- The denormalized projection row `db.UpsertArticleFTS` computes for an
article. -/
def ftsProjection (s : Store) (a : Article) : FTSRow :=
  { rowid := a.id
    url := a.url
    title := a.title
    content := a.contentMd.getD ""
    folder := folderPathOf s a
    tags := tagConcat s a.id }

/-- `INSERT OR REPLACE` into `articles_fts` keyed by rowid. -/
def replaceFTS (rows : List FTSRow) (row : FTSRow) : List FTSRow :=
  (rows.filter (fun r => r.rowid ≠ row.rowid)) ++ [row]

/-- `db.UpsertArticleFTS`: look the article up (error — `none` — when the
id is absent) and insert-or-replace its projection row. -/
def upsertArticleFTS (s : Store) (articleId : Int) : Option Store :=
  match s.articles.find? (fun a => a.id = articleId) with
  | none => none
  | some a => some { s with fts := replaceFTS s.fts (ftsProjection s a) }

/-- The callers treat an `UpsertArticleFTS` error as a logged warning and
keep the un-refreshed store. -/
def upsertArticleFTSWarn (s : Store) (articleId : Int) : Store :=
  (upsertArticleFTS s articleId).getD s

/-- `db.DeleteArticleFTS`. No operation in the sources ever calls it. -/
def deleteArticleFTS (s : Store) (articleId : Int) : Store :=
  { s with fts := s.fts.filter (fun r => r.rowid ≠ articleId) }

/-- `db.RebuildFTS`: drop the projection and re-insert one row per
non-obsolete article (the Go loop iterates ids `ORDER BY id`; iteration
order does not affect the resulting relation since ids are unique).
An `UpsertArticleFTS` error aborts the loop (`none`), though the lookup of
an id drawn from `articles` itself cannot fail. -/
def rebuildFTS (s : Store) : Option Store :=
  ((s.articles.filter (fun a => !a.obsolete)).map (·.id)).foldlM
    (fun st aid => upsertArticleFTS st aid) { s with fts := [] }

/-! ## Import (`importer.processRecord`) and feed ingest (`rss.SyncFeed`) -/

/-- A parsed CSV row handed to `processRecord` (`model.CSVRecord`). -/
structure CSVRecord where
  url : String
  title : String
  selection : String := ""
  folder : String := ""
  timestamp : Int
  tags : String := ""
deriving Repr, DecidableEq

/-- `INSERT OR IGNORE INTO article_tags`. -/
def linkArticleTag (s : Store) (aid tid : Int) : Store :=
  if s.articleTags.contains (aid, tid) then s
  else { s with articleTags := s.articleTags ++ [(aid, tid)] }

/-- `importer.processTags`: parse, dedupe, upsert each tag and link it. -/
def processTags (s : Store) (aid : Int) (tagsStr : String) : Store :=
  (dedupeStrings (parseTags tagsStr)).foldl
    (fun st title =>
      let (st', tid) := upsertTag st title
      linkArticleTag st' aid tid) s

/-- Modelled from the spec: the initial `articles` schema migration is not
under `src/` (only the `obsolete` migration is), so the defaults of the
columns the importer's `INSERT` omits come from §3/§4.2 — a new article is
created in never-synced state: sync fields NULL, `failed_count` 0,
`obsolete` FALSE. -/
def newArticleRow (aid : Int) (url title : String) (selection : Option String)
    (folderId : Option Int) (instAt : String) : Article :=
  { id := aid, url := url, title := title, selection := selection,
    folderId := folderId, instapaperedAt := instAt }

/-- The field updates the `UPDATE articles SET title = ?, selection = ?,
folder_id = ?, instapapered_at = ? WHERE id = ?` of `processRecord`
applies to the existing row. -/
def importUpdate (r : CSVRecord) (folderId : Option Int) (a : Article) :
    Article :=
  { a with title := r.title,
           selection := if r.selection ≠ "" then some r.selection else none,
           folderId := folderId,
           instapaperedAt := unixToISO8601 r.timestamp }

/-- `importer.processRecord`: canonicalize (`none` = skipped row), upsert
the folder, then insert a new article at an unseen canonical URL or update
title/selection/folder/provenance (and replace the tag links) of the
existing row; either branch refreshes the FTS row (warn-only). -/
def processRecord (s : Store) (r : CSVRecord) : Option Store :=
  match canonicalizeURL r.url with
  | none => none
  | some canonicalURL =>
    let s1 := if r.folder ≠ "" then (upsertFolder s r.folder none).1 else s
    let folderId :=
      if r.folder ≠ "" then some (upsertFolder s r.folder none).2 else none
    let instAt := unixToISO8601 r.timestamp
    let selection := if r.selection ≠ "" then some r.selection else none
    match s1.articles.find? (fun a => a.url = canonicalURL) with
    | none =>
      let aid := freshId (s1.articles.map (·.id))
      let s2 := { s1 with articles :=
        s1.articles ++ [newArticleRow aid canonicalURL r.title selection folderId instAt] }
      let s3 := processTags s2 aid r.tags
      some (upsertArticleFTSWarn s3 aid)
    | some existing =>
      let s2 := { s1 with articles := s1.articles.map (fun (a : Article) =>
        if a.id = existing.id then importUpdate r folderId a else a) }
      let s3 := { s2 with articleTags :=
        s2.articleTags.filter (fun p => p.1 ≠ existing.id) }
      let s4 := processTags s3 existing.id r.tags
      some (upsertArticleFTSWarn s4 existing.id)

/-- `rss.normalizeURL`: rewrite a leading `http://` to `https://` (the
guarded `strings.Replace(…, 1)` replaces exactly that prefix); nothing
else — no fragment stripping, no trailing-slash trimming. -/
def rssNormalizeURL (url : String) : String :=
  if strStartsWith url "http://" then "https://" ++ url.drop 7 else url

/-- One item of `rss.SyncFeed`'s loop: skip when the (lightly) normalized
link is already a stored URL; otherwise insert a new article (title and
formatted publish date only), link the feed's tags, refresh FTS.
`pubAt` is the already-formatted publish date string. (The FTS refresh
error path returns early in Go but is unreachable: the article was just
inserted.) -/
def syncFeedItem (s : Store) (link title pubAt : String)
    (feedTags : List String) : Store :=
  let normalizedURL := rssNormalizeURL link
  match s.articles.find? (fun a => a.url = normalizedURL) with
  | some _ => s
  | none =>
    let aid := freshId (s.articles.map (·.id))
    let s1 := { s with articles :=
      s.articles ++ [newArticleRow aid normalizedURL title none none pubAt] }
    let s2 := feedTags.foldl
      (fun st t =>
        let (st', tid) := upsertTag st t
        linkArticleTag st' aid tid) s1
    upsertArticleFTSWarn s2 aid

/-! ## Fetch outcome writes (`fetcher.recordFailure`, success update) -/

/-- `fetcher.recordFailure`: the `UPDATE articles SET sync_failed_at = ?,
failed_count = failed_count + 1, status_code = ?, status_text = ? WHERE
id = ?`. Touches nothing else; the FTS projection is not refreshed. -/
def recordFailure (s : Store) (articleId : Int) (now : Int)
    (statusCode : Int) (statusText : String) : Store :=
  { s with articles := s.articles.map (fun a =>
      if a.id = articleId then
        { a with syncFailedAt := some (formatRFC3339 now)
                 failedCount := a.failedCount + 1
                 statusCode := some statusCode
                 statusText := some statusText }
      else a) }

/-- The field writes of the success `UPDATE` of
`fetcher.fetchSingleArticle`. -/
def successUpdate (now : Int) (markdown : String) (rawHtml : Option String)
    (title finalUrl : String) (statusCode : Int) (a : Article) : Article :=
  { a with syncedAt := some (formatRFC3339 now)
           contentMd := some markdown
           rawHtml := rawHtml
           title := title
           finalUrl := some finalUrl
           statusCode := some statusCode
           statusText := some "OK"
           failedCount := 0
           syncFailedAt := none }

/-- The success `UPDATE` of `fetcher.fetchSingleArticle` followed by the
warn-only FTS refresh. -/
def fetchSuccessUpdate (s : Store) (articleId : Int) (now : Int)
    (markdown : String) (rawHtml : Option String) (title : String)
    (finalUrl : String) (statusCode : Int) : Store :=
  let s1 := { s with articles := s.articles.map (fun a =>
      if a.id = articleId then
        successUpdate now markdown rawHtml title finalUrl statusCode a
      else a) }
  upsertArticleFTSWarn s1 articleId

/-! ## Obsolescence sweep (`runObsolete` in `cmd/instapaper-cli/main.go`) -/

/-- The sweep's selector flags (`--ids`, `--status-codes`,
`--min-failures`); a criterion is active only when supplied, mirroring the
conditionally-built SQL `WHERE`. -/
structure ObsoleteSelector where
  ids : List Int := []
  statusCodes : List Int := []
  minFailures : Int := 0
deriving Repr, DecidableEq

/-- The sweep's row predicate: the AND of the active criteria plus the
always-added `obsolete = FALSE` (a NULL `status_code` never matches an
`IN` list). -/
def obsoleteMatches (sel : ObsoleteSelector) (a : Article) : Bool :=
  (sel.ids.isEmpty || sel.ids.contains a.id) &&
  (sel.statusCodes.isEmpty ||
    (match a.statusCode with
     | some c => sel.statusCodes.contains c
     | none => false)) &&
  (sel.minFailures ≤ 0 || sel.minFailures ≤ a.failedCount) &&
  !a.obsolete

/-- The non-dry-run `UPDATE articles SET obsolete = TRUE WHERE …` of
`runObsolete`. It performs no other statement: in particular the
`articles_fts` projection is left untouched. -/
def markObsolete (s : Store) (sel : ObsoleteSelector) : Store :=
  { s with articles := s.articles.map (fun a =>
      if obsoleteMatches sel a then { a with obsolete := true } else a) }

/-! ## Fetch candidate selection (`fetcher.getCandidateArticles`) -/

/-- `fetcher.FetchOptions`. -/
structure FetchOptions where
  order : String := ""
  searchPhrase : String := ""
  limit : Int := 0
  preferExtracted : Bool := false
  storeRaw : Bool := false
deriving Repr, DecidableEq

/-- The query's cooldown clause, exactly as SQLite evaluates it:
`sync_failed_at IS NULL OR sync_failed_at <= datetime('now', '-1 hour')`,
a BINARY-collation string comparison between the stored RFC3339 text and
SQLite's `YYYY-MM-DD HH:MM:SS` rendering of the cutoff. -/
def cooldownClause (now : Int) : Option String → Bool
  | none => true
  | some t => strLe t (formatSQLiteDateTime (now - 3600))

/-- The full row predicate of the candidate query's `WHERE`. -/
def candidateWhere (now : Int) (opts : FetchOptions) (a : Article) : Bool :=
  a.syncedAt.isNone && a.failedCount < 5 && cooldownClause now a.syncFailedAt &&
  !a.obsolete &&
  (opts.searchPhrase = "" ||
    (likeContains a.url opts.searchPhrase ||
     likeContains a.title opts.searchPhrase))

/-- Insertion step of the sort modelling SQL `ORDER BY`. -/
def insertBy (le : α → α → Bool) (x : α) : List α → List α
  | [] => [x]
  | y :: ys => if le x y then x :: y :: ys else y :: insertBy le x ys

/-- Sort modelling SQL `ORDER BY` with key comparison `le` (an `ORDER BY`
fixes only the key order, which any correct sort realizes). -/
def sortBy (le : α → α → Bool) : List α → List α
  | [] => []
  | x :: xs => insertBy le x (sortBy le xs)

/-- `ORDER BY a.instapapered_at DESC`. -/
def orderByInstDesc (l : List Article) : List Article :=
  sortBy (fun a b => strLe b.instapaperedAt a.instapaperedAt) l

/-- `fetcher.getCandidateArticles`: filter, order by provenance time
(newest or oldest first), apply the limit when positive. -/
def getCandidateArticles (s : Store) (now : Int) (opts : FetchOptions) :
    List Article :=
  let base := s.articles.filter (candidateWhere now opts)
  let ordered :=
    if opts.order = "newest" then orderByInstDesc base
    else sortBy (fun a b => strLe a.instapaperedAt b.instapaperedAt) base
  if opts.limit > 0 then ordered.take opts.limit.toNat else ordered

/-! ## Read surfaces and the obsolescence gate

The LIKE / FTS-MATCH conditions of the search queries select rows by text
content; their text semantics is irrelevant to the obsolescence gate, so
they are taken as predicate parameters, while the structural parts of each
query (joins, the presence or absence of `obsolete = FALSE`) are
translated literally. -/

/-- `mcp.searchLike` row selection (`internal/mcp/filters.go`): LIKE
condition `q` over the joined row AND `a.obsolete = FALSE`. -/
def mcpSearchLike (s : Store) (q : Article → Bool) : List Article :=
  s.articles.filter (fun a => !a.obsolete && q a)

/-- `mcp.searchFTS` row selection: `INNER JOIN articles_fts` (the article
must have a projection row matching `q`) AND `a.obsolete = FALSE`. -/
def mcpSearchFTS (s : Store) (q : FTSRow → Bool) : List Article :=
  s.articles.filter (fun a =>
    !a.obsolete && s.fts.any (fun r => r.rowid = a.id && q r))

/-- `mcp.getArticleWithDetails` (`internal/mcp/filters.go`): the query's
`WHERE` is `a.id = ?` alone — there is no `obsolete` condition. -/
def mcpGetArticleWithDetails (s : Store) (id : Int) : Option Article :=
  s.articles.find? (fun a => a.id = id)

/-- `export.getArticleWithDetails` (`internal/export/export.go`): `WHERE
a.id = ? AND a.obsolete = FALSE`. -/
def exportGetArticleWithDetails (s : Store) (id : Int) : Option Article :=
  s.articles.find? (fun a => a.id = id && !a.obsolete)

/-- `export.ExportAllOptions` (the fields the selection queries read). -/
structure ExportAllOptions where
  onlySynced : Bool := false
  folderFilter : String := ""
  tagFilter : String := ""
  since : String := ""
  untilStr : String := ""
deriving Repr, DecidableEq

/-- The `(f.path_cache = ? OR f.title = ?)` folder condition through the
LEFT JOIN (a NULL folder or path never equals the filter). -/
def folderMatchesFilter (s : Store) (a : Article) (filt : String) : Bool :=
  match a.folderId with
  | none => false
  | some fid =>
    match s.folders.find? (fun f => f.id = fid) with
    | none => false
    | some f =>
      (match f.pathCache with
       | some p => p = filt
       | none => false) || f.title = filt

/-- The `t.title = ?` condition through the tag join: some linked tag has
this exact title. -/
def hasTagTitle (s : Store) (aid : Int) (title : String) : Bool :=
  s.articleTags.any (fun p =>
    p.1 = aid &&
    (match s.tags.find? (fun t => t.id = p.2) with
     | some t => t.title = title
     | none => false))

/-- The optional filter conditions shared verbatim by the two
`getArticlesForExport` variants (only-synced / folder / tag / date
range). -/
def exportFilterCond (s : Store) (opts : ExportAllOptions) (a : Article) :
    Bool :=
  (!opts.onlySynced || a.contentMd.isSome) &&
  (opts.folderFilter = "" || folderMatchesFilter s a opts.folderFilter) &&
  (opts.tagFilter = "" || hasTagTitle s a.id opts.tagFilter) &&
  (opts.since = "" || strLe opts.since a.instapaperedAt) &&
  (opts.untilStr = "" || strLe a.instapaperedAt opts.untilStr)

/-- `mcp.getArticlesForExport` (`internal/mcp/filters.go`, the
`FromSearch == ""` path): base `WHERE 1=1` — no `obsolete` condition —
plus the optional filters, ordered newest-first. -/
def mcpGetArticlesForExport (s : Store) (opts : ExportAllOptions) :
    List Article :=
  orderByInstDesc (s.articles.filter (fun a => exportFilterCond s opts a))

/-- `export.getArticlesForExport` (`internal/export/export.go`, the
`FromSearch == ""` path): base `WHERE a.obsolete = FALSE` plus the same
optional filters. -/
def exportGetArticlesForExport (s : Store) (opts : ExportAllOptions) :
    List Article :=
  orderByInstDesc
    (s.articles.filter (fun a => !a.obsolete && exportFilterCond s opts a))

/-! ## Fetch pipeline (`fetcher.FetchArticles` / `fetchSingleArticle`) -/

/-- Substring test for Go's case-sensitive `strings.Contains`. -/
def containsSubstr (s pat : String) : Bool := listIsInfixOf pat.data s.data

/-- One step of the cleanup loop of `fetcher.prettifyMarkdown`. -/
def prettifyStep (cleaned : List String) (line0 : String) : List String :=
  let line := trimStr line0
  if line = "" then
    if cleaned ≠ [] ∧ cleaned.getLast? ≠ some "" then cleaned ++ [""]
    else cleaned
  else if containsSubstr line "facebook.com/tr" ||
      containsSubstr line "google-analytics" ||
      containsSubstr line "gtag" ||
      containsSubstr line "googletagmanager" then cleaned
  else cleaned ++ [line]

/-- `fetcher.prettifyMarkdown`: trim lines, collapse blank-line runs, drop
tracker-script lines, then the final `ReplaceAll "\n\n\n" → "\n\n"` (split
and re-join, Go's `ReplaceAll` semantics) and a trim. -/
def prettifyMarkdown (markdown : String) : String :=
  let lines := splitOnChar markdown '\n'
  let cleaned := lines.foldl prettifyStep []
  let result := String.intercalate "\n" cleaned
  trimStr (String.intercalate "\n\n" (splitOnStr result "\n\n\n"))

/-- The environment's response to fetching one article: each constructor
is one of the per-article failure points of `fetchSingleArticle`, plus the
fully-extracted success case (`content` is the readability HTML,
`markdown` the converter's raw output before cleanup; the HTTP status on
the success path is necessarily 200). -/
inductive FetchOutcome where
  | requestError (msg : String)
  | networkError (msg : String)
  | httpError (statusCode : Int) (status : String)
  | readabilityError (msg : String)
  | markdownError (msg : String)
  | extracted (content markdown extractedTitle finalUrl : String)
deriving Repr, DecidableEq

/-- `fetcher.fetchSingleArticle`: every failure point calls
`recordFailure` (which persists the failure and returns a non-nil error);
the success path runs the cleanup, resolves title/raw-HTML options and
commits the success update. Readability/markdown failures report the (200)
response status code. -/
def fetchSingleArticle (s : Store) (a : Article) (outcome : FetchOutcome)
    (now : Int) (opts : FetchOptions) : Store × Except String Unit :=
  match outcome with
  | .requestError msg =>
    (recordFailure s a.id now 0 ("RequestError: " ++ msg),
     .error ("fetch failed: RequestError: " ++ msg))
  | .networkError msg =>
    (recordFailure s a.id now 0 ("NetworkError: " ++ msg),
     .error ("fetch failed: NetworkError: " ++ msg))
  | .httpError code status =>
    (recordFailure s a.id now code status,
     .error ("fetch failed: " ++ status))
  | .readabilityError msg =>
    (recordFailure s a.id now 200 ("ReadabilityError: " ++ msg),
     .error ("fetch failed: ReadabilityError: " ++ msg))
  | .markdownError msg =>
    (recordFailure s a.id now 200 ("MarkdownError: " ++ msg),
     .error ("fetch failed: MarkdownError: " ++ msg))
  | .extracted content markdown extractedTitle finalUrl =>
    let md := prettifyMarkdown markdown
    let title :=
      if opts.preferExtracted ∧ extractedTitle ≠ "" then extractedTitle
      else a.title
    let rawHtml := if opts.storeRaw then some content else none
    (fetchSuccessUpdate s a.id now md rawHtml title finalUrl 200, .ok ())

/-- `fetcher.FetchArticles`: a store-level candidate-selection failure
(`selFailure`) aborts with an error; otherwise every candidate is
processed in order, each per-article error merely logged (the loop
`continue`s), and the batch reports success. -/
def fetchArticles (s : Store) (now : Int) (opts : FetchOptions)
    (env : Article → FetchOutcome) (selFailure : Option String) :
    Store × Except String Unit :=
  match selFailure with
  | some e => (s, .error ("failed to get candidate articles: " ++ e))
  | none =>
    let articles := getCandidateArticles s now opts
    (articles.foldl (fun st a => (fetchSingleArticle st a (env a) now opts).1) s,
     .ok ())

/-! ## Folder materialized paths (`db.UpdateFolderPaths`) -/

/-- The recursive `buildPath` closure of `db.UpdateFolderPaths`, with an
explicit recursion budget: the Go original has no cycle guard, so `none`
(budget exhausted at every budget) models its divergence. An id absent
from the table yields `""` as in the source. -/
def buildPath (folders : List Folder) : Nat → Int → Option String
  | 0, _ => none
  | fuel + 1, id =>
    match folders.find? (fun f => f.id = id) with
    | none => some ""
    | some f =>
      match f.parentId with
      | none => some f.title
      | some p => (buildPath folders fuel p).map (fun pp => pp ++ "/" ++ f.title)

/-- `db.UpdateFolderPaths` as a store operation: write each folder's
computed path into `path_cache`. The budget `length + 1` is sufficient
exactly on the acyclic tables the repository produces (no folder-editing
feature introduces cycles); `getD ""` is unreachable there. -/
def updateFolderPaths (s : Store) : Store :=
  { s with folders := s.folders.map (fun f =>
      let p := (buildPath s.folders (s.folders.length + 1) f.id).getD ""
      { f with pathCache := some p }) }

/-! ## Support lemmas -/

theorem articles_upsertFolder (s : Store) (t : String) (p : Option Int) :
    ((upsertFolder s t p).1).articles = s.articles := by
  unfold upsertFolder
  cases s.folders.find? (fun f => f.title = t) <;> rfl

theorem articles_upsertTag (s : Store) (t : String) :
    ((upsertTag s t).1).articles = s.articles := by
  unfold upsertTag
  cases s.tags.find? (fun x => x.title = t) <;> rfl

theorem articles_linkArticleTag (s : Store) (aid tid : Int) :
    (linkArticleTag s aid tid).articles = s.articles := by
  unfold linkArticleTag
  split <;> rfl

theorem articles_tagFold (l : List String) (s : Store) (aid : Int) :
    (l.foldl (fun st title =>
      let (st', tid) := upsertTag st title
      linkArticleTag st' aid tid) s).articles = s.articles := by
  induction l generalizing s with
  | nil => rfl
  | cons x xs ih =>
    rw [List.foldl_cons, ih]
    show (linkArticleTag (upsertTag s x).1 aid (upsertTag s x).2).articles = _
    rw [articles_linkArticleTag, articles_upsertTag]

theorem articles_processTags (s : Store) (aid : Int) (ts : String) :
    (processTags s aid ts).articles = s.articles := by
  unfold processTags
  exact articles_tagFold _ s aid

theorem articles_upsertArticleFTSWarn (s : Store) (aid : Int) :
    (upsertArticleFTSWarn s aid).articles = s.articles := by
  unfold upsertArticleFTSWarn upsertArticleFTS
  cases s.articles.find? (fun a => a.id = aid) <;> rfl

theorem mem_insertBy {le : α → α → Bool} {x y : α} {l : List α} :
    y ∈ insertBy le x l ↔ y = x ∨ y ∈ l := by
  induction l with
  | nil => simp [insertBy]
  | cons z zs ih =>
    simp only [insertBy]
    split
    · simp [List.mem_cons]
    · simp only [List.mem_cons, ih]
      tauto

theorem mem_sortBy {le : α → α → Bool} {y : α} {l : List α} :
    y ∈ sortBy le l ↔ y ∈ l := by
  induction l with
  | nil => simp [sortBy]
  | cons z zs ih =>
    simp only [sortBy, mem_insertBy, List.mem_cons, ih]

theorem candidateWhere_of_mem {s : Store} {now : Int} {opts : FetchOptions}
    {a : Article} (h : a ∈ getCandidateArticles s now opts) :
    candidateWhere now opts a = true := by
  unfold getCandidateArticles at h
  simp only at h
  have h2 : a ∈ (if opts.order = "newest" then
      orderByInstDesc (s.articles.filter (candidateWhere now opts))
    else sortBy (fun a b => strLe a.instapaperedAt b.instapaperedAt)
      (s.articles.filter (candidateWhere now opts))) := by
    by_cases hl : opts.limit > 0
    · rw [if_pos hl] at h
      exact List.take_subset _ _ h
    · rwa [if_neg hl] at h
  have h3 : a ∈ s.articles.filter (candidateWhere now opts) := by
    by_cases ho : opts.order = "newest"
    · rw [if_pos ho] at h2
      exact (mem_sortBy).1 h2
    · rw [if_neg ho] at h2
      exact (mem_sortBy).1 h2
  exact (List.mem_filter.1 h3).2

/-- The insert branch of `processRecord`: at an unseen canonical URL a
fresh never-synced row is appended. -/
theorem processRecord_insert
    (s : Store) (r : CSVRecord) (cu : String)
    (hc : canonicalizeURL r.url = some cu)
    (hf : s.articles.find? (fun a => a.url = cu) = none) :
    ∃ s', processRecord s r = some s' ∧
      s'.articles = s.articles ++
        [newArticleRow (freshId (s.articles.map (·.id))) cu r.title
          (if r.selection ≠ "" then some r.selection else none)
          (if r.folder ≠ "" then some (upsertFolder s r.folder none).2 else none)
          (unixToISO8601 r.timestamp)] := by
  simp only [processRecord, hc]
  rw [show (if r.folder ≠ "" then (upsertFolder s r.folder none).1 else s).articles
      = s.articles by split <;> simp [articles_upsertFolder]]
  rw [hf]
  exact ⟨_, rfl, by rw [articles_upsertArticleFTSWarn, articles_processTags]⟩

/-- The update branch of `processRecord`: at a seen canonical URL the row
found first is updated in place (title, selection, folder reference,
provenance time), no row inserted. -/
theorem processRecord_update
    (s : Store) (r : CSVRecord) (cu : String) (e : Article)
    (hc : canonicalizeURL r.url = some cu)
    (hf : s.articles.find? (fun a => a.url = cu) = some e) :
    ∃ s', processRecord s r = some s' ∧
      s'.articles = s.articles.map (fun a =>
        if a.id = e.id then
          importUpdate r
            (if r.folder ≠ "" then some (upsertFolder s r.folder none).2 else none)
            a
        else a) := by
  simp only [processRecord, hc]
  rw [show (if r.folder ≠ "" then (upsertFolder s r.folder none).1 else s).articles
      = s.articles by split <;> simp [articles_upsertFolder]]
  rw [hf]
  exact ⟨_, rfl, by rw [articles_upsertArticleFTSWarn, articles_processTags]⟩

/-! ## Claim C6 — upsert idempotence on the canonical URL -/

/-- Number of article rows carrying the given URL. -/
def urlCount (s : Store) (u : String) : Nat :=
  (s.articles.filter (fun a => a.url = u)).length

theorem filter_map_length_of_url_preserved (l : List Article)
    (f : Article → Article) (hf : ∀ a, (f a).url = a.url) (cu : String) :
    ((l.map f).filter (fun a => a.url = cu)).length =
      (l.filter (fun a => a.url = cu)).length := by
  induction l with
  | nil => rfl
  | cons x xs ih =>
    simp only [List.map_cons, List.filter_cons, hf]
    split <;> simp [ih]

/-- Helper: what a successful URL-keyed `find?` tells us. -/
theorem find?_url_spec {l : List Article} {cu : String} {e : Article}
    (h : l.find? (fun a => a.url = cu) = some e) : e ∈ l ∧ e.url = cu := by
  refine ⟨List.mem_of_find?_eq_some h, ?_⟩
  have h2 := List.find?_some h
  simpa using h2

/-- Helper: a failing URL-keyed `find?` means no row carries the URL. -/
theorem find?_url_none {l : List Article} {cu : String}
    (h : l.find? (fun a => a.url = cu) = none) :
    l.filter (fun a => a.url = cu) = [] := by
  rw [List.filter_eq_nil_iff]
  intro a ha
  simpa using List.find?_eq_none.1 h a ha

/-- C6: starting from a store holding at most one row at canonical URL
`cu`, importing a record canonicalizing to `cu` and then a second one
leaves exactly one row at `cu`, with the second call changing no row
count and updating only title/selection/folder/provenance of that row —
every sync-state field (synced_at, sync_failed_at, failed_count,
status_code, status_text, final_url, content, raw markup) survives
unchanged. -/
theorem upsert_same_canonical_url_twice
    (s : Store) (r r' : CSVRecord) (cu : String)
    (h1 : canonicalizeURL r.url = some cu)
    (h2 : canonicalizeURL r'.url = some cu)
    (hu : urlCount s cu ≤ 1) :
    ∃ s1 s2, processRecord s r = some s1 ∧ processRecord s1 r' = some s2 ∧
      urlCount s1 cu = 1 ∧
      s2.articles.length = s1.articles.length ∧
      urlCount s2 cu = 1 ∧
      ∀ a1 ∈ s1.articles, a1.url = cu →
        ∃ a2 ∈ s2.articles,
          a2.url = cu ∧
          a2.syncedAt = a1.syncedAt ∧ a2.syncFailedAt = a1.syncFailedAt ∧
          a2.failedCount = a1.failedCount ∧ a2.statusCode = a1.statusCode ∧
          a2.statusText = a1.statusText ∧ a2.finalUrl = a1.finalUrl ∧
          a2.contentMd = a1.contentMd ∧ a2.rawHtml = a1.rawHtml ∧
          a2.title = r'.title ∧
          a2.instapaperedAt = unixToISO8601 r'.timestamp ∧
          a2.selection = (if r'.selection ≠ "" then some r'.selection else none) := by
  have step1 : ∃ s1, processRecord s r = some s1 ∧ urlCount s1 cu = 1 := by
    cases hf : s.articles.find? (fun a => a.url = cu) with
    | none =>
      obtain ⟨s1, hs1, harts⟩ := processRecord_insert s r cu h1 hf
      refine ⟨s1, hs1, ?_⟩
      unfold urlCount
      rw [harts, List.filter_append, find?_url_none hf]
      simp [newArticleRow]
    | some e =>
      obtain ⟨s1, hs1, harts⟩ := processRecord_update s r cu e h1 hf
      refine ⟨s1, hs1, ?_⟩
      obtain ⟨hem, heu⟩ := find?_url_spec hf
      have hmem : e ∈ s.articles.filter (fun a => a.url = cu) :=
        List.mem_filter.2 ⟨hem, by simpa using heu⟩
      have hge : 1 ≤ urlCount s cu := by
        unfold urlCount
        have : s.articles.filter (fun a => a.url = cu) ≠ [] :=
          List.ne_nil_of_mem hmem
        exact Nat.one_le_iff_ne_zero.2 (by simpa [List.length_eq_zero] using this)
      have heq : urlCount s cu = 1 := le_antisymm hu hge
      show (s1.articles.filter (fun a => a.url = cu)).length = 1
      have hpres : ∀ a : Article,
          (if a.id = e.id then
            importUpdate r
              (if r.folder ≠ "" then some (upsertFolder s r.folder none).2 else none)
              a else a).url = a.url := by
        intro a
        split <;> rfl
      rw [harts, filter_map_length_of_url_preserved _ _ hpres]
      exact heq
  obtain ⟨s1, hs1, hc1⟩ := step1
  have hex : ∃ e', s1.articles.find? (fun a => a.url = cu) = some e' := by
    cases hfind : s1.articles.find? (fun a => a.url = cu) with
    | some e' => exact ⟨e', rfl⟩
    | none =>
      exfalso
      have hnil := find?_url_none hfind
      have : (List.filter (fun a => decide (a.url = cu)) s1.articles).length = 1 := hc1
      rw [hnil] at this
      simp at this
  obtain ⟨e', hf1⟩ := hex
  obtain ⟨s2, hs2, harts2⟩ := processRecord_update s1 r' cu e' h2 hf1
  have hurl_pres : ∀ a : Article,
      (if a.id = e'.id then
        importUpdate r'
          (if r'.folder ≠ "" then some (upsertFolder s1 r'.folder none).2 else none)
          a else a).url = a.url := by
    intro a
    split <;> rfl
  have hc2 : urlCount s2 cu = 1 := by
    show (s2.articles.filter (fun a => a.url = cu)).length = 1
    rw [harts2, filter_map_length_of_url_preserved _ _ hurl_pres]
    exact hc1
  have hfilter1 : s1.articles.filter (fun a => a.url = cu) = [e'] := by
    obtain ⟨x, hx⟩ := List.length_eq_one.1 hc1
    obtain ⟨he'm2, _⟩ := find?_url_spec hf1
    have he'm : e' ∈ s1.articles.filter (fun a => a.url = cu) :=
      List.mem_filter.2 ⟨he'm2, by simpa using (find?_url_spec hf1).2⟩
    rw [hx] at he'm ⊢
    simp only [List.mem_singleton] at he'm
    rw [he'm]
  refine ⟨s1, s2, hs1, hs2, hc1, ?_, hc2, ?_⟩
  · rw [harts2, List.length_map]
  · intro a1 ha1 hurl
    have ha1e : a1 = e' := by
      have : a1 ∈ s1.articles.filter (fun a => a.url = cu) :=
        List.mem_filter.2 ⟨ha1, by simpa using hurl⟩
      rw [hfilter1] at this
      simpa using this
    refine ⟨importUpdate r'
      (if r'.folder ≠ "" then some (upsertFolder s1 r'.folder none).2 else none) a1,
      ?_, hurl, rfl, rfl, rfl, rfl, rfl, rfl, rfl, rfl, rfl, rfl, rfl⟩
    rw [harts2]
    refine List.mem_map.2 ⟨a1, ha1, ?_⟩
    rw [if_pos (by rw [ha1e])]

/-- Two concrete records sharing the canonical URL `https://w.example/x`. -/
def c6Rec : CSVRecord :=
  { url := "http://w.example/x/", title := "T1", timestamp := 100 }

/-- The second record: same canonical URL through a fragment instead of a
trailing slash. -/
def c6Rec2 : CSVRecord :=
  { url := "https://w.example/x#frag", title := "T2", selection := "sel",
    timestamp := 200 }

/-- Witness: the C6 theorem applied to the empty store and the two
records above. -/
theorem upsert_same_canonical_url_twice_witness :
    ∃ s1 s2, processRecord {} c6Rec = some s1 ∧
      processRecord s1 c6Rec2 = some s2 ∧
      urlCount s1 "https://w.example/x" = 1 ∧
      s2.articles.length = s1.articles.length ∧
      urlCount s2 "https://w.example/x" = 1 ∧
      ∀ a1 ∈ s1.articles, a1.url = "https://w.example/x" →
        ∃ a2 ∈ s2.articles,
          a2.url = "https://w.example/x" ∧
          a2.syncedAt = a1.syncedAt ∧ a2.syncFailedAt = a1.syncFailedAt ∧
          a2.failedCount = a1.failedCount ∧ a2.statusCode = a1.statusCode ∧
          a2.statusText = a1.statusText ∧ a2.finalUrl = a1.finalUrl ∧
          a2.contentMd = a1.contentMd ∧ a2.rawHtml = a1.rawHtml ∧
          a2.title = c6Rec2.title ∧
          a2.instapaperedAt = unixToISO8601 c6Rec2.timestamp ∧
          a2.selection =
            (if c6Rec2.selection ≠ "" then some c6Rec2.selection else none) :=
  upsert_same_canonical_url_twice {} c6Rec c6Rec2 "https://w.example/x"
    (by decide) (by decide) (by decide)

/-! ## Claim C1 — the obsolescence gate on the read surfaces -/

/-- An article flagged obsolete. -/
def obsArticle : Article :=
  { id := 1, url := "https://example.com/gone", title := "Gone",
    instapaperedAt := "2023-01-01T00:00:00Z", obsolete := true }

/-- A store whose only article is obsolete. -/
def obsStore : Store := { articles := [obsArticle] }

/-- C1: at an obsolete article, the MCP search queries, both export-package
queries and fetch-candidate selection do filter it out, but the
protocol-server's single-article lookup (`mcp.getArticleWithDetails`)
returns it and the protocol-server's export retrieval
(`mcp.getArticlesForExport`) includes it: their queries carry no
`obsolete = FALSE` condition, contradicting the claimed gate on every MCP
read operation. -/
theorem mcp_reads_return_obsolete_article :
    obsArticle.obsolete = true ∧
    mcpGetArticleWithDetails obsStore 1 = some obsArticle ∧
    mcpGetArticlesForExport obsStore {} = [obsArticle] ∧
    exportGetArticleWithDetails obsStore 1 = none ∧
    exportGetArticlesForExport obsStore {} = [] ∧
    mcpSearchLike obsStore (fun _ => true) = [] ∧
    mcpSearchFTS obsStore (fun _ => true) = [] ∧
    getCandidateArticles obsStore 1700000000 {} = [] :=
  ⟨rfl, rfl, rfl, rfl, rfl, rfl, rfl, rfl⟩

/-! ## Claim C4 — fetch-candidate selection vs. the eligibility predicate -/

/-- The Retry/Backoff eligibility predicate in the words of the claim
(spec §4.3): obsolete false, never synced, fewer than 5 failures, and the
failure time absent or at least 3600 seconds before `now`. `failedAt` is
the semantic failure instant whose RFC3339 rendering the store holds. -/
def specEligible (a : Article) (failedAt : Option Int) (now : Int) : Bool :=
  !a.obsolete && a.syncedAt.isNone && decide (a.failedCount < 5) &&
  (match failedAt with
   | none => true
   | some t => decide (3600 ≤ now - t))

/-- An article that failed at 2023-11-14T10:00:00Z (= 1699956000). -/
def failedArticle : Article :=
  { id := 1, url := "https://example.com/x", title := "t",
    instapaperedAt := "2023-01-01T00:00:00Z",
    syncFailedAt := some (formatRFC3339 1699956000), failedCount := 1 }

/-- A store holding only `failedArticle`. -/
def failedStore : Store := { articles := [failedArticle] }

/-- C4: the `failed_count ≥ 5` half of the claim holds of the query (every
selected candidate has fewer than 5 failures), but the biconditional
fails: at `now` = 2023-11-14T22:13:20Z (= 1700000000) the article that
failed 12 hours and 13 minutes earlier is eligible by the claim's
predicate, yet candidate selection returns nothing — the stored RFC3339
`sync_failed_at` ("2023-11-14T10:00:00Z") compares greater than the
cutoff text `datetime('now','-1 hour')` ("2023-11-14 21:13:20") under
SQLite's byte-wise collation because `'T' > ' '` at offset 10. -/
theorem cooldown_format_mismatch_blocks_eligible_candidate :
    (∀ s now opts, ((getCandidateArticles s now opts).all
      (fun a => decide (a.failedCount < 5))) = true) ∧
    specEligible failedArticle (some 1699956000) 1700000000 = true ∧
    failedArticle.syncFailedAt = some "2023-11-14T10:00:00Z" ∧
    ((1700000000 : Int) - 1699956000 ≥ 3600) = True ∧
    formatSQLiteDateTime (1700000000 - 3600) = "2023-11-14 21:13:20" ∧
    strLe "2023-11-14T10:00:00Z" "2023-11-14 21:13:20" = false ∧
    getCandidateArticles failedStore 1700000000 {} = [] := by
  refine ⟨?_, by decide, by decide, by simp, by decide, by decide, by decide⟩
  intro s now opts
  rw [List.all_eq_true]
  intro a ha
  have h := candidateWhere_of_mem ha
  unfold candidateWhere at h
  simp only [Bool.and_eq_true] at h
  exact h.1.1.1.2

/-! ## Claim C3 — feed ingestion vs. Canonical Identity -/

/-- The import record for the raw URL `http://example.com/a/`. -/
def c3ImportRecord : CSVRecord :=
  { url := "http://example.com/a/", title := "T", timestamp := 1700000000 }

/-- The store after importing `c3ImportRecord` into an empty store. -/
def c3ImportedStore : Store := (processRecord {} c3ImportRecord).getD {}

/-- C3 counterexample: feed ingestion does not apply the import
canonicalization. On the same raw URL, import stores
`https://example.com/a` while the feed's normalization keeps the trailing
slash, so ingesting the same link after importing it inserts a second
article row for the same underlying URL. -/
theorem feed_and_import_disagree_on_canonical_url :
    canonicalizeURL "http://example.com/a/" = some "https://example.com/a" ∧
    rssNormalizeURL "http://example.com/a/" = "https://example.com/a/" ∧
    (processRecord {} c3ImportRecord).isSome = true ∧
    c3ImportedStore.articles.map (·.url) = ["https://example.com/a"] ∧
    (syncFeedItem c3ImportedStore "http://example.com/a/" "T2"
      "2024-01-01T00:00:00Z" []).articles.map (·.url) =
      ["https://example.com/a", "https://example.com/a/"] := by
  refine ⟨by decide, by decide, by decide, by decide, by decide⟩

/-- C3 amended: feed ingestion normalizes an item link only by rewriting a
leading `http://` prefix to `https://`, then inserts a fresh never-synced
article exactly when that lightly-normalized URL is unseen among stored
article URLs (and skips the item — never refreshing the existing row —
otherwise). -/
theorem syncFeedItem_inserts_iff_prefix_normalized_unseen
    (s : Store) (link title pubAt : String) (feedTags : List String) :
    (rssNormalizeURL link =
      (if strStartsWith link "http://" then "https://" ++ link.drop 7 else link)) ∧
    (∀ a0, s.articles.find? (fun a => a.url = rssNormalizeURL link) = some a0 →
      syncFeedItem s link title pubAt feedTags = s) ∧
    (s.articles.find? (fun a => a.url = rssNormalizeURL link) = none →
      (syncFeedItem s link title pubAt feedTags).articles =
        s.articles ++ [newArticleRow (freshId (s.articles.map (·.id)))
          (rssNormalizeURL link) title none none pubAt]) := by
  refine ⟨rfl, ?_, ?_⟩
  · intro a0 h
    simp only [syncFeedItem]
    rw [h]
  · intro h
    simp only [syncFeedItem]
    rw [h]
    rw [articles_upsertArticleFTSWarn, articles_tagFold]

/-! ## Claim C7 — canonicalization rules and the import scenario -/

/-- The §8 import scenario row: URL `http://example.com/a/`, timestamp
1700000000, folder `Reading`, tags `["x","y"]`. -/
def c7Record : CSVRecord :=
  { url := "http://example.com/a/", title := "A", selection := "",
    folder := "Reading", timestamp := 1700000000, tags := "[\"x\",\"y\"]" }

/-- Store after importing the scenario row, plus the end-of-import folder
path recomputation `ImportCSV` performs. -/
def c7Store : Store :=
  ((processRecord {} c7Record).map updateFolderPaths).getD {}

/-- C7: canonicalization rewrites scheme http to https, drops the
fragment, removes exactly one trailing slash (`dropRight 1`, and only when
one is present), leaves host and query untouched, and errors on an
unparsable URL; and the concrete import scenario yields canonical URL
`https://example.com/a`, provenance time 2023-11-14T22:13:20Z, folder path
`Reading` and tag titles x, y. -/
theorem canonicalization_rules_and_import_scenario :
    (∀ u : URL,
      (canonicalizeParsed u).scheme =
        (if u.scheme = "http" then "https" else u.scheme) ∧
      (canonicalizeParsed u).fragment = "" ∧
      (canonicalizeParsed u).path =
        (if strEndsWith u.path "/" then u.path.dropRight 1 else u.path) ∧
      (canonicalizeParsed u).host = u.host ∧
      (canonicalizeParsed u).rawQuery = u.rawQuery) ∧
    canonicalizeURL "http://exa mple.com/" = none ∧
    (processRecord {} c7Record).isSome = true ∧
    c7Store.articles.map (·.url) = ["https://example.com/a"] ∧
    unixToISO8601 1700000000 = "2023-11-14T22:13:20Z" ∧
    c7Store.articles.map (·.instapaperedAt) = ["2023-11-14T22:13:20Z"] ∧
    c7Store.articles.map (·.folderId) = [some 1] ∧
    c7Store.folders.map (fun f => (f.id, f.pathCache)) = [(1, some "Reading")] ∧
    (c7Store.articleTags.map (fun p =>
      (c7Store.tags.find? (fun t => t.id = p.2)).map (·.title))) =
      [some "x", some "y"] := by
  refine ⟨?_, by decide, by decide, by decide, by decide, by decide,
    by decide, by decide, by decide⟩
  intro u
  refine ⟨rfl, rfl, ?_, rfl, rfl⟩
  show trimSuffix u.path "/" = _
  unfold trimSuffix
  have hl : ("/" : String).length = 1 := rfl
  rw [hl]

/-- Witness for the amended C3 theorem at concrete inputs: ingesting into
the empty store inserts the prefix-normalized row; ingesting the same link
again is a no-op. -/
theorem syncFeedItem_inserts_iff_prefix_normalized_unseen_witness :
    (syncFeedItem {} "http://e.com/p" "t" "2024-01-01T00:00:00Z" ["x"]).articles =
      [newArticleRow 1 "https://e.com/p" "t" none none "2024-01-01T00:00:00Z"] ∧
    syncFeedItem
      { articles := [newArticleRow 1 "https://e.com/p" "t" none none
          "2024-01-01T00:00:00Z"] }
      "http://e.com/p" "t2" "2024-02-01T00:00:00Z" [] =
      { articles := [newArticleRow 1 "https://e.com/p" "t" none none
          "2024-01-01T00:00:00Z"] } := by
  constructor
  · have h := (syncFeedItem_inserts_iff_prefix_normalized_unseen {}
      "http://e.com/p" "t" "2024-01-01T00:00:00Z" ["x"]).2.2 (by decide)
    rw [h]
    decide
  · exact (syncFeedItem_inserts_iff_prefix_normalized_unseen _
      "http://e.com/p" "t2" "2024-02-01T00:00:00Z" []).2.1
      (newArticleRow 1 "https://e.com/p" "t" none none "2024-01-01T00:00:00Z")
      (by decide)

/-! ## Claim C9 — the frame of `recordFailure` -/

/-- C9: recording a fetch failure leaves every other relation (projection,
folders, tags, links) and the article count unchanged, and at every row
position it preserves id, url, title, selection, folder, provenance,
synced_at, content, raw markup, final URL and the obsolete flag; a row
whose id is not the target is entirely unchanged, and the target row gets
exactly the failure-time/count/status writes. In particular a failure
after an earlier success never clears previously fetched content. -/
theorem record_failure_frame
    (s : Store) (aid now statusCode : Int) (statusText : String) :
    (recordFailure s aid now statusCode statusText).fts = s.fts ∧
    (recordFailure s aid now statusCode statusText).folders = s.folders ∧
    (recordFailure s aid now statusCode statusText).tags = s.tags ∧
    (recordFailure s aid now statusCode statusText).articleTags = s.articleTags ∧
    (recordFailure s aid now statusCode statusText).articles.length =
      s.articles.length ∧
    ∀ i : Nat, ∀ h : i < s.articles.length,
      ∀ h' : i < (recordFailure s aid now statusCode statusText).articles.length,
      ((recordFailure s aid now statusCode statusText).articles.get ⟨i, h'⟩).id =
        (s.articles.get ⟨i, h⟩).id ∧
      ((recordFailure s aid now statusCode statusText).articles.get ⟨i, h'⟩).url =
        (s.articles.get ⟨i, h⟩).url ∧
      ((recordFailure s aid now statusCode statusText).articles.get ⟨i, h'⟩).title =
        (s.articles.get ⟨i, h⟩).title ∧
      ((recordFailure s aid now statusCode statusText).articles.get ⟨i, h'⟩).selection =
        (s.articles.get ⟨i, h⟩).selection ∧
      ((recordFailure s aid now statusCode statusText).articles.get ⟨i, h'⟩).folderId =
        (s.articles.get ⟨i, h⟩).folderId ∧
      ((recordFailure s aid now statusCode statusText).articles.get ⟨i, h'⟩).instapaperedAt =
        (s.articles.get ⟨i, h⟩).instapaperedAt ∧
      ((recordFailure s aid now statusCode statusText).articles.get ⟨i, h'⟩).syncedAt =
        (s.articles.get ⟨i, h⟩).syncedAt ∧
      ((recordFailure s aid now statusCode statusText).articles.get ⟨i, h'⟩).contentMd =
        (s.articles.get ⟨i, h⟩).contentMd ∧
      ((recordFailure s aid now statusCode statusText).articles.get ⟨i, h'⟩).rawHtml =
        (s.articles.get ⟨i, h⟩).rawHtml ∧
      ((recordFailure s aid now statusCode statusText).articles.get ⟨i, h'⟩).finalUrl =
        (s.articles.get ⟨i, h⟩).finalUrl ∧
      ((recordFailure s aid now statusCode statusText).articles.get ⟨i, h'⟩).obsolete =
        (s.articles.get ⟨i, h⟩).obsolete ∧
      ((s.articles.get ⟨i, h⟩).id ≠ aid →
        (recordFailure s aid now statusCode statusText).articles.get ⟨i, h'⟩ =
          s.articles.get ⟨i, h⟩) ∧
      ((s.articles.get ⟨i, h⟩).id = aid →
        ((recordFailure s aid now statusCode statusText).articles.get ⟨i, h'⟩).syncFailedAt =
          some (formatRFC3339 now) ∧
        ((recordFailure s aid now statusCode statusText).articles.get ⟨i, h'⟩).failedCount =
          (s.articles.get ⟨i, h⟩).failedCount + 1 ∧
        ((recordFailure s aid now statusCode statusText).articles.get ⟨i, h'⟩).statusCode =
          some statusCode ∧
        ((recordFailure s aid now statusCode statusText).articles.get ⟨i, h'⟩).statusText =
          some statusText) := by
  refine ⟨rfl, rfl, rfl, rfl, by simp [recordFailure], ?_⟩
  intro i h h'
  have hget : (recordFailure s aid now statusCode statusText).articles.get ⟨i, h'⟩ =
      (if (s.articles.get ⟨i, h⟩).id = aid then
        { s.articles.get ⟨i, h⟩ with
            syncFailedAt := some (formatRFC3339 now)
            failedCount := (s.articles.get ⟨i, h⟩).failedCount + 1
            statusCode := some statusCode
            statusText := some statusText }
        else s.articles.get ⟨i, h⟩) := by
    show (List.map _ s.articles).get ⟨i, h'⟩ = _
    rw [List.get_eq_getElem, List.getElem_map]
    rfl
  rw [hget]
  by_cases hid : (s.articles.get ⟨i, h⟩).id = aid
  · rw [if_pos hid]
    exact ⟨rfl, rfl, rfl, rfl, rfl, rfl, rfl, rfl, rfl, rfl, rfl,
      fun hne => absurd hid hne, fun _ => ⟨rfl, rfl, rfl, rfl⟩⟩
  · rw [if_neg hid]
    exact ⟨rfl, rfl, rfl, rfl, rfl, rfl, rfl, rfl, rfl, rfl, rfl,
      fun _ => rfl, fun heq => absurd heq hid⟩

/-- Witness for the C9 frame theorem: a two-article store in which article
2 had fetched content; failing article 1 leaves article 2's row (position
1) fully unchanged. -/
theorem record_failure_frame_witness :
    (0 : Nat) < 2 ∧
    ((recordFailure
      { articles := [
          { id := 1, url := "https://a.example/1", title := "one",
            instapaperedAt := "2024-01-01T00:00:00Z" },
          { id := 2, url := "https://a.example/2", title := "two",
            instapaperedAt := "2024-01-02T00:00:00Z",
            syncedAt := some "2024-01-03T00:00:00Z",
            contentMd := some "body" }] }
      1 1700000000 404 "404 Not Found").articles.length = 2) := by
  have h := record_failure_frame
    { articles := [
        { id := 1, url := "https://a.example/1", title := "one",
          instapaperedAt := "2024-01-01T00:00:00Z" },
        { id := 2, url := "https://a.example/2", title := "two",
          instapaperedAt := "2024-01-02T00:00:00Z",
          syncedAt := some "2024-01-03T00:00:00Z",
          contentMd := some "body" }] }
    1 1700000000 404 "404 Not Found"
  exact ⟨by decide, (h.2.2.2.2.1).trans (by decide)⟩

/-! ## Claim C5 — failed_count = 0 iff sync_failed_at is null -/

/-- A support lemma shared by several claims: feed ingestion either leaves
the articles untouched (seen URL) or appends exactly the fresh row. -/
theorem syncFeedItem_articles (s : Store) (link t pa : String)
    (tags : List String) :
    (syncFeedItem s link t pa tags).articles = s.articles ∨
    (syncFeedItem s link t pa tags).articles =
      s.articles ++ [newArticleRow (freshId (s.articles.map (·.id)))
        (rssNormalizeURL link) t none none pa] := by
  simp only [syncFeedItem]
  cases s.articles.find? (fun a => a.url = rssNormalizeURL link) with
  | some a0 => exact Or.inl rfl
  | none =>
    refine Or.inr ?_
    rw [articles_upsertArticleFTSWarn, articles_tagFold]

/-- The claimed invariant, strengthened with the nonnegativity of
`failed_count` (its schema default is 0 and the only writes reset it to 0
or increment it), which makes the biconditional inductive. -/
def syncInvariant (s : Store) : Prop :=
  ∀ a ∈ s.articles,
    0 ≤ a.failedCount ∧ (a.failedCount = 0 ↔ a.syncFailedAt = none)

/-- C5: a new row starts at failed_count 0 / sync_failed_at null; import
(insert or metadata update), feed ingestion, recording a failure,
recording a success and the obsolescence sweep each preserve the
invariant; a recorded failure sets the failure time and pushes the count
to ≥ 1 together on the targeted row, and a recorded success resets both
together. -/
theorem failure_count_iff_failure_time_preserved
    (s : Store) (hs : syncInvariant s) :
    (∀ aid url title sel fid instAt,
      (newArticleRow aid url title sel fid instAt).failedCount = 0 ∧
      (newArticleRow aid url title sel fid instAt).syncFailedAt = none) ∧
    (∀ r s', processRecord s r = some s' → syncInvariant s') ∧
    (∀ link t pa tags, syncInvariant (syncFeedItem s link t pa tags)) ∧
    (∀ aid now c txt, syncInvariant (recordFailure s aid now c txt)) ∧
    (∀ a ∈ s.articles, ∀ aid now c txt, a.id = aid →
      ∃ a' ∈ (recordFailure s aid now c txt).articles,
        a'.syncFailedAt = some (formatRFC3339 now) ∧ 1 ≤ a'.failedCount) ∧
    (∀ aid now md raw t fu sc,
      syncInvariant (fetchSuccessUpdate s aid now md raw t fu sc)) ∧
    (∀ a ∈ s.articles, ∀ aid now md raw t fu sc, a.id = aid →
      ∃ a' ∈ (fetchSuccessUpdate s aid now md raw t fu sc).articles,
        a'.failedCount = 0 ∧ a'.syncFailedAt = none) ∧
    (∀ sel, syncInvariant (markObsolete s sel)) := by
  refine ⟨fun _ _ _ _ _ _ => ⟨rfl, rfl⟩, ?_, ?_, ?_, ?_, ?_, ?_, ?_⟩
  · intro r s' h
    cases hc : canonicalizeURL r.url with
    | none => rw [processRecord, hc] at h; exact absurd h (by simp)
    | some cu =>
      cases hf : s.articles.find? (fun a => a.url = cu) with
      | none =>
        obtain ⟨s'', hs'', harts⟩ := processRecord_insert s r cu hc hf
        rw [h] at hs''
        cases hs''
        intro a ha
        rw [harts] at ha
        rcases List.mem_append.1 ha with hold | hnew
        · exact hs a hold
        · simp only [List.mem_singleton] at hnew
          rw [hnew]
          exact ⟨le_refl 0, by simp [newArticleRow]⟩
      | some e =>
        obtain ⟨s'', hs'', harts⟩ := processRecord_update s r cu e hc hf
        rw [h] at hs''
        cases hs''
        intro a ha
        rw [harts] at ha
        obtain ⟨a0, ha0, hfa⟩ := List.mem_map.1 ha
        by_cases hid : a0.id = e.id
        · rw [if_pos hid] at hfa
          rw [← hfa]
          exact hs a0 ha0
        · rw [if_neg hid] at hfa
          rw [← hfa]
          exact hs a0 ha0
  · intro link t pa tags a ha
    rcases syncFeedItem_articles s link t pa tags with heq | heq
    · rw [heq] at ha
      exact hs a ha
    · rw [heq] at ha
      rcases List.mem_append.1 ha with hold | hnew
      · exact hs a hold
      · simp only [List.mem_singleton] at hnew
        rw [hnew]
        exact ⟨le_refl 0, by simp [newArticleRow]⟩
  · intro aid now c txt a ha
    obtain ⟨a0, ha0, hfa⟩ := List.mem_map.1 ha
    by_cases hid : a0.id = aid
    · rw [if_pos hid] at hfa
      obtain ⟨hnn, _⟩ := hs a0 ha0
      rw [← hfa]
      constructor
      · simp only
        omega
      · constructor
        · intro hzero
          exfalso
          simp only at hzero
          omega
        · intro hnone
          exact absurd hnone (by simp)
    · rw [if_neg hid] at hfa
      rw [← hfa]
      exact hs a0 ha0
  · intro a ha aid now c txt hid
    refine ⟨{ a with syncFailedAt := some (formatRFC3339 now)
                     failedCount := a.failedCount + 1
                     statusCode := some c
                     statusText := some txt }, ?_, rfl, ?_⟩
    · unfold recordFailure
      simp only
      refine List.mem_map.2 ⟨a, ha, ?_⟩
      rw [if_pos hid]
    · obtain ⟨hnn, _⟩ := hs a ha
      simp only
      omega
  · intro aid now md raw t fu sc a ha
    rw [fetchSuccessUpdate, articles_upsertArticleFTSWarn] at ha
    obtain ⟨a0, ha0, hfa⟩ := List.mem_map.1 ha
    by_cases hid : a0.id = aid
    · rw [if_pos hid] at hfa
      rw [← hfa]
      exact ⟨le_refl 0, by simp [successUpdate]⟩
    · rw [if_neg hid] at hfa
      rw [← hfa]
      exact hs a0 ha0
  · intro a ha aid now md raw t fu sc hid
    refine ⟨successUpdate now md raw t fu sc a, ?_, rfl, rfl⟩
    rw [fetchSuccessUpdate, articles_upsertArticleFTSWarn]
    refine List.mem_map.2 ⟨a, ha, ?_⟩
    rw [if_pos hid]
  · intro sel a ha
    obtain ⟨a0, ha0, hfa⟩ := List.mem_map.1 ha
    by_cases hm : obsoleteMatches sel a0 = true
    · rw [if_pos hm] at hfa
      rw [← hfa]
      exact hs a0 ha0
    · rw [if_neg hm] at hfa
      rw [← hfa]
      exact hs a0 ha0

/-- The store for the C5 witness: one never-synced and one failed
article, both satisfying the invariant. -/
def c5Store : Store :=
  { articles := [
      { id := 1, url := "https://c5.example/1", title := "one",
        instapaperedAt := "2024-01-01T00:00:00Z" },
      { id := 2, url := "https://c5.example/2", title := "two",
        instapaperedAt := "2024-01-02T00:00:00Z",
        syncFailedAt := some "2024-01-03T00:00:00Z", failedCount := 2 }] }

/-- Witness: the invariant-preservation theorem applied to `c5Store`
(whose invariant is checked by evaluation) at a concrete failure write. -/
theorem failure_count_iff_failure_time_preserved_witness :
    syncInvariant (recordFailure c5Store 1 1700000000 404 "404 Not Found") :=
  (failure_count_iff_failure_time_preserved c5Store
    (by unfold syncInvariant; decide)).2.2.2.1 1 1700000000 404 "404 Not Found"

/-! ## Claim C8 — batch completion and error propagation -/

/-- C8: a fetch batch propagates an error exactly when candidate selection
itself failed; with selection succeeding, the batch folds over the entire
candidate list (every candidate processed once, in order) and reports
success regardless of per-article outcomes; and every per-article failure
point — request construction, network error, non-200 response,
readability extraction, markdown conversion — is recorded against that
article via `recordFailure` with the corresponding status code (0 for
transport, the response code otherwise), while only the success outcome
skips recording. -/
theorem fetch_batch_completes_and_records_failures
    (s : Store) (now : Int) (opts : FetchOptions)
    (env : Article → FetchOutcome) :
    (∀ e, fetchArticles s now opts env (some e) =
      (s, Except.error ("failed to get candidate articles: " ++ e))) ∧
    (fetchArticles s now opts env none =
      ((getCandidateArticles s now opts).foldl
        (fun st a => (fetchSingleArticle st a (env a) now opts).1) s,
       Except.ok ())) ∧
    (∀ a msg, fetchSingleArticle s a (.requestError msg) now opts =
      (recordFailure s a.id now 0 ("RequestError: " ++ msg),
       Except.error ("fetch failed: RequestError: " ++ msg))) ∧
    (∀ a msg, fetchSingleArticle s a (.networkError msg) now opts =
      (recordFailure s a.id now 0 ("NetworkError: " ++ msg),
       Except.error ("fetch failed: NetworkError: " ++ msg))) ∧
    (∀ a code status, fetchSingleArticle s a (.httpError code status) now opts =
      (recordFailure s a.id now code status,
       Except.error ("fetch failed: " ++ status))) ∧
    (∀ a msg, fetchSingleArticle s a (.readabilityError msg) now opts =
      (recordFailure s a.id now 200 ("ReadabilityError: " ++ msg),
       Except.error ("fetch failed: ReadabilityError: " ++ msg))) ∧
    (∀ a msg, fetchSingleArticle s a (.markdownError msg) now opts =
      (recordFailure s a.id now 200 ("MarkdownError: " ++ msg),
       Except.error ("fetch failed: MarkdownError: " ++ msg))) ∧
    (∀ a c md t fu, (fetchSingleArticle s a (.extracted c md t fu) now opts).2 =
      Except.ok ()) :=
  ⟨fun _ => rfl, rfl, fun _ _ => rfl, fun _ _ => rfl, fun _ _ _ => rfl,
   fun _ _ => rfl, fun _ _ => rfl, fun _ _ _ _ _ => rfl⟩

/-! ## Claim C2 — the full-text index projection vs. the article store -/

/-- The consistency property the claim asserts of a committed store state:
exactly one projection row per non-obsolete article id, mirroring its
denormalized url/title/content/folder-path/tag-list, no row for an
obsolete article, and no orphan rows. -/
def ftsConsistent (s : Store) : Bool :=
  s.articles.all (fun a =>
    if a.obsolete then (s.fts.filter (fun r => r.rowid = a.id)).isEmpty
    else s.fts.filter (fun r => r.rowid = a.id) == [ftsProjection s a]) &&
  s.fts.all (fun r => s.articles.any (fun a => a.id = r.rowid))

/-- The article of the C2 counterexample store. -/
def c2Article : Article :=
  { id := 1, url := "https://c2.example/a", title := "T",
    instapaperedAt := "2024-01-01T00:00:00Z" }

/-- The projection row mirroring `c2Article`. -/
def c2Row : FTSRow :=
  { rowid := 1, url := "https://c2.example/a", title := "T",
    content := "", folder := "", tags := "" }

/-- A consistent one-article store (article 1 with its projection row). -/
def c2Store : Store := { articles := [c2Article], fts := [c2Row] }

/-- C2 counterexample: the obsolete flip commits with the projection row
of the now-obsolete article still present — `runObsolete` executes only
the `UPDATE articles SET obsolete = TRUE` and never touches
`articles_fts`, so the committed state right after the flip violates the
claimed agreement. -/
theorem obsolete_flip_leaves_stale_projection_row :
    ftsConsistent c2Store = true ∧
    (markObsolete c2Store { ids := [1] }).articles.map (·.obsolete) = [true] ∧
    (markObsolete c2Store { ids := [1] }).fts = c2Store.fts ∧
    c2Store.fts ≠ [] ∧
    ftsConsistent (markObsolete c2Store { ids := [1] }) = false := by
  refine ⟨by decide, by decide, rfl, by decide, by decide⟩

theorem filter_replaceFTS (rows : List FTSRow) (row : FTSRow) :
    (replaceFTS rows row).filter (fun r => r.rowid = row.rowid) = [row] := by
  unfold replaceFTS
  rw [List.filter_append, List.filter_filter]
  have h : (rows.filter fun a =>
      decide (a.rowid = row.rowid) && decide (a.rowid ≠ row.rowid)) = [] := by
    rw [List.filter_eq_nil_iff]
    intro a _
    by_cases hr : a.rowid = row.rowid <;> simp [hr]
  rw [h]
  simp

theorem find?_map_of_pred_comm {l : List α} {g : α → α} {p : α → Bool}
    (h : ∀ x, p (g x) = p x) :
    (l.map g).find? p = (l.find? p).map g := by
  induction l with
  | nil => rfl
  | cons x xs ih =>
    simp only [List.map_cons, List.find?]
    rw [h x]
    cases hpx : p x <;> simp [ih]

theorem find?_id_of_nodup {l : List Article}
    (hnd : (l.map (·.id)).Nodup) {a : Article} (ha : a ∈ l) :
    l.find? (fun x => x.id = a.id) = some a := by
  induction l with
  | nil => cases ha
  | cons x xs ih =>
    rw [List.map_cons, List.nodup_cons] at hnd
    rcases List.mem_cons.1 ha with rfl | hmem
    · exact List.find?_cons_of_pos _ (by simp)
    · have hx : x.id ≠ a.id := fun hcontra =>
        hnd.1 (hcontra ▸ List.mem_map.2 ⟨a, hmem, rfl⟩)
      rw [List.find?_cons_of_neg _ (by simpa using hx)]
      exact ih hnd.2 hmem

theorem filter_map_proj_none (s : Store) (l : List Article) (i : Int)
    (hno : ∀ b ∈ l, b.id ≠ i) :
    (l.map (ftsProjection s)).filter (fun r => r.rowid = i) = [] := by
  rw [List.filter_eq_nil_iff]
  intro r hr
  obtain ⟨b, hb, hrb⟩ := List.mem_map.1 hr
  have : r.rowid = b.id := by rw [← hrb]; rfl
  simp [this, hno b hb]

theorem filter_map_proj_single (s : Store) (l : List Article) (a : Article)
    (hnd : (l.map (·.id)).Nodup) (ha : a ∈ l) :
    (l.map (ftsProjection s)).filter (fun r => r.rowid = a.id) =
      [ftsProjection s a] := by
  induction l with
  | nil => cases ha
  | cons x xs ih =>
    rw [List.map_cons] at hnd
    rw [List.nodup_cons] at hnd
    rcases List.mem_cons.1 ha with rfl | hmem
    · simp only [List.map_cons, List.filter_cons]
      rw [if_pos (by simp [ftsProjection])]
      have hrest : ∀ b ∈ xs, b.id ≠ a.id := by
        intro b hb hcontra
        exact hnd.1 (hcontra ▸ List.mem_map.2 ⟨b, hb, rfl⟩)
      rw [filter_map_proj_none s xs a.id hrest]
    · have hx : x.id ≠ a.id := by
        intro hcontra
        exact hnd.1 (hcontra ▸ List.mem_map.2 ⟨a, hmem, rfl⟩)
      simp only [List.map_cons, List.filter_cons]
      rw [if_neg (by simp [ftsProjection, hx])]
      exact ih hnd.2 hmem

/-- The accumulated projection rewrite the rebuild loop performs. -/
def replaceFold (s : Store) (acc : List FTSRow) (l : List Article) :
    List FTSRow :=
  l.foldl (fun rows a => replaceFTS rows (ftsProjection s a)) acc

/-- The projection rows of the non-obsolete articles. -/
def projectionOfLive (s : Store) : List FTSRow :=
  (s.articles.filter (fun a => !a.obsolete)).map (ftsProjection s)

theorem rebuild_fold (s : Store) (l : List Article)
    (hl : ∀ a ∈ l, s.articles.find? (fun x => x.id = a.id) = some a) :
    ∀ acc : List FTSRow,
      (l.map (·.id)).foldlM (fun st aid => upsertArticleFTS st aid)
          { s with fts := acc } =
        some { s with fts := replaceFold s acc l } := by
  induction l with
  | nil => intro acc; rfl
  | cons a as ih =>
    intro acc
    rw [List.map_cons, List.foldlM_cons]
    have hstep : upsertArticleFTS { s with fts := acc } a.id =
        some { s with fts := replaceFTS acc (ftsProjection s a) } := by
      unfold upsertArticleFTS
      rw [show ({ s with fts := acc } : Store).articles = s.articles from rfl,
        hl a (List.mem_cons_self a as)]
      rfl
    rw [hstep]
    show (as.map (·.id)).foldlM (fun st aid => upsertArticleFTS st aid)
        { s with fts := replaceFTS acc (ftsProjection s a) } = _
    rw [ih (fun b hb => hl b (List.mem_cons_of_mem a hb))]
    rfl

theorem foldl_replace_eq_map (s : Store) (l : List Article)
    (hnd : (l.map (·.id)).Nodup) :
    ∀ acc : List FTSRow, (∀ r ∈ acc, ∀ a ∈ l, r.rowid ≠ a.id) →
      replaceFold s acc l = acc ++ l.map (ftsProjection s) := by
  induction l with
  | nil =>
    intro acc _
    unfold replaceFold
    simp
  | cons a as ih =>
    intro acc hacc
    rw [List.map_cons] at hnd
    rw [List.nodup_cons] at hnd
    have hfilter : replaceFTS acc (ftsProjection s a) =
        acc ++ [ftsProjection s a] := by
      unfold replaceFTS
      congr 1
      rw [List.filter_eq_self]
      intro r hr
      simpa [ftsProjection] using hacc r hr a (List.mem_cons_self a as)
    show List.foldl _ acc (a :: as) = _
    rw [List.foldl_cons, hfilter,
      show List.foldl (fun rows x => replaceFTS rows (ftsProjection s x))
        (acc ++ [ftsProjection s a]) as =
        replaceFold s (acc ++ [ftsProjection s a]) as from rfl,
      ih hnd.2 (acc ++ [ftsProjection s a]) ?_]
    · simp
    · intro r hr b hb
      rcases List.mem_append.1 hr with hr1 | hr2
      · exact hacc r hr1 b (List.mem_cons_of_mem a hb)
      · simp only [List.mem_singleton] at hr2
        rw [hr2]
        show a.id ≠ b.id
        intro hcontra
        exact hnd.1 (hcontra ▸ List.mem_map.2 ⟨b, hb, rfl⟩)

/-- C2 amended: (i) the obsolete flip writes nothing but the flag — the
projection (and folders/tags/links) is untouched, so the stale row of a
newly obsolete article persists until repair; (ii) a recorded fetch
success refreshes the affected article's projection row to mirror its
updated state (as a separate best-effort statement, not a shared
transaction); (iii) the administrative rebuild, on a store with unique
article ids, recreates the projection as exactly one mirroring row per
non-obsolete article, none for obsolete ones, none orphaned. -/
theorem projection_refresh_and_rebuild
    (s : Store) (hnd : (s.articles.map (·.id)).Nodup) :
    (∀ sel, (markObsolete s sel).fts = s.fts ∧
      (markObsolete s sel).folders = s.folders ∧
      (markObsolete s sel).tags = s.tags ∧
      (markObsolete s sel).articleTags = s.articleTags) ∧
    (∀ aid now md raw t fu sc,
      (s.articles.any (fun x => x.id = aid)) = true →
      ∃ a', (fetchSuccessUpdate s aid now md raw t fu sc).articles.find?
          (fun x => x.id = aid) = some a' ∧
        a'.contentMd = some md ∧ a'.syncedAt = some (formatRFC3339 now) ∧
        (fetchSuccessUpdate s aid now md raw t fu sc).fts.filter
            (fun r => r.rowid = aid) =
          [ftsProjection (fetchSuccessUpdate s aid now md raw t fu sc) a']) ∧
    (∃ s', rebuildFTS s = some s' ∧ s'.articles = s.articles ∧
      ftsConsistent s' = true) := by
  refine ⟨fun sel => ⟨rfl, rfl, rfl, rfl⟩, ?_, ?_⟩
  · intro aid now md raw t fu sc hany
    have hsome : (s.articles.find? (fun x => x.id = aid)).isSome = true := by
      rw [List.find?_isSome]
      exact List.any_eq_true.1 hany
    obtain ⟨a0, ha0⟩ := Option.isSome_iff_exists.1 hsome
    have ha0id : a0.id = aid := by simpa using List.find?_some ha0
    have hgid : ∀ x : Article,
        (if x.id = aid then successUpdate now md raw t fu sc x else x).id =
          x.id := by
      intro x
      split <;> rfl
    have hpcomm : ∀ x : Article,
        decide ((if x.id = aid then
          successUpdate now md raw t fu sc x else x).id = aid) =
          decide (x.id = aid) := by
      intro x
      rw [hgid x]
    have hfind1 : (s.articles.map (fun a =>
        if a.id = aid then successUpdate now md raw t fu sc a else a)).find?
          (fun x => x.id = aid) =
        some (if a0.id = aid then successUpdate now md raw t fu sc a0 else a0) := by
      rw [find?_map_of_pred_comm hpcomm, ha0]
      rfl
    rw [if_pos ha0id] at hfind1
    have hF : fetchSuccessUpdate s aid now md raw t fu sc =
        { s with
            articles := s.articles.map (fun a =>
              if a.id = aid then successUpdate now md raw t fu sc a else a)
            fts := replaceFTS s.fts
              (ftsProjection
                { s with articles := s.articles.map (fun a =>
                    if a.id = aid then successUpdate now md raw t fu sc a else a) }
                (successUpdate now md raw t fu sc a0)) } := by
      show upsertArticleFTSWarn _ aid = _
      unfold upsertArticleFTSWarn upsertArticleFTS
      rw [show ({ s with articles := s.articles.map (fun a =>
          if a.id = aid then successUpdate now md raw t fu sc a else a) } :
            Store).articles =
          s.articles.map (fun a =>
            if a.id = aid then successUpdate now md raw t fu sc a else a)
        from rfl, hfind1]
      rfl
    refine ⟨successUpdate now md raw t fu sc a0, ?_, rfl, rfl, ?_⟩
    · rw [hF]
      exact hfind1
    · rw [hF]
      have hrow : (ftsProjection
          { s with articles := s.articles.map (fun a =>
              if a.id = aid then successUpdate now md raw t fu sc a else a) }
          (successUpdate now md raw t fu sc a0)).rowid = aid := by
        show (successUpdate now md raw t fu sc a0).id = aid
        show a0.id = aid
        exact ha0id
      rw [show (fun r : FTSRow => decide (r.rowid = aid)) =
          (fun r : FTSRow => decide (r.rowid = (ftsProjection
            { s with articles := s.articles.map (fun a =>
                if a.id = aid then successUpdate now md raw t fu sc a else a) }
            (successUpdate now md raw t fu sc a0)).rowid)) by
        rw [hrow]]
      exact filter_replaceFTS _ _
  · have hl : ∀ a ∈ s.articles.filter (fun a => !a.obsolete),
        s.articles.find? (fun x => x.id = a.id) = some a := by
      intro a ha
      exact find?_id_of_nodup hnd (List.mem_of_mem_filter ha)
    have hndf : ((s.articles.filter (fun a => !a.obsolete)).map (·.id)).Nodup :=
      List.Nodup.sublist
        (List.Sublist.map (·.id) (List.filter_sublist s.articles)) hnd
    have hfold := rebuild_fold s (s.articles.filter (fun a => !a.obsolete)) hl []
    have hmap := foldl_replace_eq_map s (s.articles.filter (fun a => !a.obsolete))
      hndf [] (by intro r hr; cases hr)
    refine ⟨{ s with fts := projectionOfLive s }, ?_, rfl, ?_⟩
    · show ((s.articles.filter (fun a => !a.obsolete)).map (·.id)).foldlM
        (fun st aid => upsertArticleFTS st aid) { s with fts := [] } = _
      rw [hfold, hmap]
      rfl
    · unfold ftsConsistent
      rw [Bool.and_eq_true, List.all_eq_true, List.all_eq_true]
      constructor
      · intro a ha
        by_cases hobs : a.obsolete
        · rw [if_pos hobs]
          have hno : ∀ b ∈ s.articles.filter (fun x => !x.obsolete),
              b.id ≠ a.id := by
            intro b hb hcontra
            have hbmem := List.mem_of_mem_filter hb
            have hbo : !b.obsolete = true := by
              simpa using (List.mem_filter.1 hb).2
            have : b = a := List.inj_on_of_nodup_map hnd hbmem ha hcontra
            rw [this] at hbo
            simp [hobs] at hbo
          rw [show ({ s with fts := projectionOfLive s } : Store).fts =
              (s.articles.filter (fun x => !x.obsolete)).map (ftsProjection s)
            from rfl]
          rw [filter_map_proj_none s _ a.id hno]
          rfl
        · rw [if_neg hobs]
          have hmem : a ∈ s.articles.filter (fun x => !x.obsolete) :=
            List.mem_filter.2 ⟨ha, by simp [hobs]⟩
          rw [show ({ s with fts := projectionOfLive s } : Store).fts =
              (s.articles.filter (fun x => !x.obsolete)).map (ftsProjection s)
            from rfl]
          rw [filter_map_proj_single s _ a hndf hmem]
          exact beq_iff_eq.2 rfl
      · intro r hr
        obtain ⟨b, hb, hrb⟩ := List.mem_map.1 hr
        rw [List.any_eq_true]
        refine ⟨b, List.mem_of_mem_filter hb, ?_⟩
        have : r.rowid = b.id := by rw [← hrb]; rfl
        simp [this]

/-- A second, obsolete article for the C2 witness store. -/
def c2ArticleB : Article :=
  { id := 2, url := "https://c2.example/b", title := "U",
    instapaperedAt := "2024-01-02T00:00:00Z", obsolete := true }

/-- A stale projection row for the obsolete article. -/
def c2RowB : FTSRow :=
  { rowid := 2, url := "https://c2.example/b", title := "U",
    content := "", folder := "", tags := "" }

/-- The C2 witness store: a live and an obsolete article, the obsolete
one still carrying a stale projection row. -/
def c2WStore : Store :=
  { articles := [c2Article, c2ArticleB], fts := [c2Row, c2RowB] }

/-- Witness for the amended C2 theorem: at `c2WStore` the sweep leaves the
projection untouched, a success on article 1 refreshes row 1, and the
rebuild restores full consistency. -/
theorem projection_refresh_and_rebuild_witness :
    (markObsolete c2WStore { ids := [1] }).fts = c2WStore.fts ∧
    (∃ a', (fetchSuccessUpdate c2WStore 1 1700000000 "md" none "T"
        "https://c2.example/a" 200).articles.find?
        (fun x => x.id = 1) = some a' ∧
      a'.contentMd = some "md" ∧
      a'.syncedAt = some (formatRFC3339 1700000000) ∧
      (fetchSuccessUpdate c2WStore 1 1700000000 "md" none "T"
          "https://c2.example/a" 200).fts.filter (fun r => r.rowid = 1) =
        [ftsProjection (fetchSuccessUpdate c2WStore 1 1700000000 "md" none "T"
          "https://c2.example/a" 200) a']) ∧
    (∃ s', rebuildFTS c2WStore = some s' ∧ s'.articles = c2WStore.articles ∧
      ftsConsistent s' = true) := by
  have h := projection_refresh_and_rebuild c2WStore (by decide)
  exact ⟨(h.1 { ids := [1] }).1,
    h.2.1 1 1700000000 "md" none "T" "https://c2.example/a" 200 (by decide),
    h.2.2⟩

/-! ## Claim C10 — materialized-path recomputation on acyclic tables -/

theorem find?_fid_of_nodup {l : List Folder}
    (hnd : (l.map (·.id)).Nodup) {f : Folder} (hf : f ∈ l) :
    l.find? (fun x => x.id = f.id) = some f := by
  induction l with
  | nil => cases hf
  | cons x xs ih =>
    rw [List.map_cons, List.nodup_cons] at hnd
    rcases List.mem_cons.1 hf with rfl | hmem
    · exact List.find?_cons_of_pos _ (by simp)
    · have hx : x.id ≠ f.id := fun hcontra =>
        hnd.1 (hcontra ▸ List.mem_map.2 ⟨f, hmem, rfl⟩)
      rw [List.find?_cons_of_neg _ (by simpa using hx)]
      exact ih hnd.2 hmem

theorem buildPath_succ (folders : List Folder) (m : Nat) (i : Int)
    {f : Folder} (hfind : folders.find? (fun x => x.id = i) = some f) :
    buildPath folders (m + 1) i =
      match f.parentId with
      | none => some f.title
      | some p => (buildPath folders m p).map (fun pp => pp ++ "/" ++ f.title) := by
  simp only [buildPath]
  rw [hfind]

/-- The one-folder cycle (its own parent): the configuration on which the
Go recursion would never return. -/
def cycFolder : Folder := { id := 1, title := "A", parentId := some 1 }

/-- C10: on a folder table with unique ids whose parent pointers are
acyclic (witnessed by a rank function decreasing along parent edges) and
refer to existing folders, `buildPath` stabilizes at every folder for
every recursion budget beyond its rank — i.e. the recursion terminates —
with the parentless path equal to the folder's own title and a child's
path equal to its parent's stable path ++ "/" ++ its own title; and the
cycle guard really is absent: on a self-parent folder no budget ever
suffices (the unguarded Go recursion diverges). -/
theorem folder_paths_terminate_on_acyclic_tables
    (folders : List Folder)
    (hnd : (folders.map (·.id)).Nodup)
    (rank : Int → Nat)
    (hrank : ∀ f ∈ folders, ∀ p, f.parentId = some p → rank p < rank f.id)
    (href : ∀ f ∈ folders, ∀ p, f.parentId = some p →
      ∃ g ∈ folders, g.id = p) :
    (∀ f ∈ folders, ∃ path : String,
      (∀ fuel, rank f.id < fuel → buildPath folders fuel f.id = some path) ∧
      (f.parentId = none → path = f.title) ∧
      (∀ p, f.parentId = some p →
        ∃ pp, (∀ fuel, rank p < fuel → buildPath folders fuel p = some pp) ∧
          path = pp ++ "/" ++ f.title)) ∧
    (∀ fuel, buildPath [cycFolder] fuel 1 = none) := by
  constructor
  · have main : ∀ n, ∀ f ∈ folders, rank f.id ≤ n → ∃ path : String,
        (∀ fuel, rank f.id < fuel → buildPath folders fuel f.id = some path) ∧
        (f.parentId = none → path = f.title) ∧
        (∀ p, f.parentId = some p →
          ∃ pp, (∀ fuel, rank p < fuel → buildPath folders fuel p = some pp) ∧
            path = pp ++ "/" ++ f.title) := by
      intro n
      induction n with
      | zero =>
        intro f hf hr
        cases hp : f.parentId with
        | some p =>
          exact absurd (hrank f hf p hp) (by omega)
        | none =>
          refine ⟨f.title, ?_, fun _ => rfl, ?_⟩
          · intro fuel hfuel
            cases fuel with
            | zero => omega
            | succ m =>
              rw [buildPath_succ folders m f.id (find?_fid_of_nodup hnd hf), hp]
          · intro p hcontra
            cases hcontra
      | succ k ih =>
        intro f hf hr
        cases hp : f.parentId with
        | none =>
          refine ⟨f.title, ?_, fun _ => rfl, ?_⟩
          · intro fuel hfuel
            cases fuel with
            | zero => omega
            | succ m =>
              rw [buildPath_succ folders m f.id (find?_fid_of_nodup hnd hf), hp]
          · intro p hcontra
            cases hcontra
        | some p =>
          obtain ⟨g, hg, hgid⟩ := href f hf p hp
          have hpn : rank p < rank f.id := hrank f hf p hp
          have hgle : rank g.id ≤ k := by
            rw [hgid]
            omega
          obtain ⟨pp, hppstab, _, _⟩ := ih g hg hgle
          rw [hgid] at hppstab
          refine ⟨pp ++ "/" ++ f.title, ?_, ?_, ?_⟩
          · intro fuel hfuel
            cases fuel with
            | zero => omega
            | succ m =>
              rw [buildPath_succ folders m f.id (find?_fid_of_nodup hnd hf), hp]
              show (buildPath folders m p).map (fun q => q ++ "/" ++ f.title) =
                some (pp ++ "/" ++ f.title)
              rw [hppstab m (by omega)]
              rfl
          · intro hcontra
            cases hcontra
          · intro q hq
            cases hq
            exact ⟨pp, hppstab, rfl⟩
    intro f hf
    exact main (rank f.id) f hf (le_refl _)
  · intro fuel
    induction fuel with
    | zero => rfl
    | succ m ih =>
      rw [buildPath_succ [cycFolder] m 1 (by rfl)]
      show (buildPath [cycFolder] m 1).map (fun q => q ++ "/" ++ cycFolder.title) =
        none
      rw [ih]
      rfl

/-- A parentless folder for the C10 witness. -/
def c10Parent : Folder := { id := 1, title := "Parent" }

/-- Its child for the C10 witness. -/
def c10Child : Folder := { id := 2, title := "Child", parentId := some 1 }

/-- The concrete two-folder table of the C10 witness. -/
def c10Folders : List Folder := [c10Parent, c10Child]

/-- Witness: the C10 theorem applied to the concrete table with rank
`Int.toNat`, specialized to the child folder, plus the cyclic-divergence
conjunct. -/
theorem folder_paths_terminate_on_acyclic_tables_witness :
    (∃ path : String,
      (∀ fuel, Int.toNat c10Child.id < fuel →
        buildPath c10Folders fuel c10Child.id = some path) ∧
      (c10Child.parentId = none → path = c10Child.title) ∧
      (∀ p, c10Child.parentId = some p →
        ∃ pp, (∀ fuel, Int.toNat p < fuel →
            buildPath c10Folders fuel p = some pp) ∧
          path = pp ++ "/" ++ c10Child.title)) ∧
    (∀ fuel, buildPath [cycFolder] fuel 1 = none) := by
  have h := folder_paths_terminate_on_acyclic_tables c10Folders (by decide)
    Int.toNat
    (by
      intro f hf p hp
      simp only [c10Folders, List.mem_cons, List.not_mem_nil, or_false] at hf
      rcases hf with rfl | rfl
      · exact absurd hp (by simp [c10Parent])
      · have : p = 1 := by
          have : some (1 : Int) = some p := by
            rw [show c10Child.parentId = some 1 from rfl] at hp
            exact hp
          exact (Option.some.inj this).symm
        rw [this]
        decide)
    (by
      intro f hf p hp
      simp only [c10Folders, List.mem_cons, List.not_mem_nil, or_false] at hf
      rcases hf with rfl | rfl
      · exact absurd hp (by simp [c10Parent])
      · have : p = 1 := by
          have : some (1 : Int) = some p := by
            rw [show c10Child.parentId = some 1 from rfl] at hp
            exact hp
          exact (Option.some.inj this).symm
        rw [this]
        exact ⟨c10Parent, by simp [c10Folders], rfl⟩)
  exact ⟨h.1 c10Child (by simp [c10Folders]), h.2⟩

end Instapaper